import Mathlib

/-!
Verification development for the `nautilus_trader` strategy engine
(`strategy.pyx` — class `TradeStrategy`) and the identifier generators
(`generators.pyx` — `IdentifierGenerator`, `OrderIdGenerator`,
`PositionIdGenerator`).

The Python/Cython code is shallowly embedded: the mutable `TradeStrategy`
object becomes a Lean structure, each `cpdef`/`cdef` method becomes a pure
function from the strategy state (and an `Env` oracle standing for the
external execution client / portfolio collaborators) to the new state paired
with the list of observable effects the method performs, in program order
(commands forwarded to the execution client, log lines, clock operations,
user-hook invocations).  Python `dict`s (insertion ordered) become
association lists with in-place update on existing keys and append on new
keys.  GUIDs and command timestamps, drawn from the external `GuidFactory`
and `Clock` collaborators, carry no information used by any method and are
elided from the command payloads.
-/

namespace Nautilus

/-- Identifier types of the model.  In `strategy.pyx` these are string-valued
value objects compared by value; the claims about `TradeStrategy` only ever
compare them for equality, so they are modelled as opaque naturals.
(The string format itself is verified separately for `generators.pyx`,
see `IdentifierGenerator` below.) -/
abbrev OrderId := Nat

abbrev PositionId := Nat

abbrev Symbol := Nat

abbrev BarType := Nat

/-- A bar is an opaque market-data atom for the purposes of the cache and
indicator claims (OHLCV contents are never inspected by `TradeStrategy`). -/
abbrev Bar := Nat

/-- Prices are fixed-precision decimals compared exactly in the source;
modelled as integers (scaled by the fixed precision). -/
abbrev Price := Int

abbrev Quantity := Nat

/-- `nautilus_trader.c_enums.order_side.OrderSide`. -/
inductive OrderSide where
  | BUY
  | SELL
  deriving DecidableEq, Repr

/-- `nautilus_trader.c_enums.market_position.MarketPosition`. -/
inductive MarketPosition where
  | FLAT
  | LONG
  | SHORT
  deriving DecidableEq, Repr

/-- `Tick` — (symbol, bid, ask); the timestamp is never read by the engine. -/
structure Tick where
  symbol : Symbol
  bid : Price
  ask : Price
  deriving DecidableEq, Repr

/-- `Order` — the fields of `nautilus_trader.model.order.Order` that
`TradeStrategy` reads. -/
structure Order where
  id : OrderId
  symbol : Symbol
  side : OrderSide
  quantity : Quantity
  price : Option Price
  label : String
  deriving DecidableEq, Repr

/-- `AtomicOrder` — entry plus stop-loss plus optional take-profit;
`has_take_profit` is the presence of the optional leg. -/
structure AtomicOrder where
  entry : Order
  stop_loss : Order
  take_profit : Option Order
  deriving DecidableEq, Repr

def AtomicOrder.has_take_profit (a : AtomicOrder) : Bool :=
  a.take_profit.isSome

/-- `Position` — the fields of `nautilus_trader.model.position.Position`
read by `TradeStrategy`.  `is_flat` is `market_position == FLAT`. -/
structure Position where
  id : PositionId
  symbol : Symbol
  market_position : MarketPosition
  quantity : Quantity
  is_entered : Bool
  deriving DecidableEq, Repr

def Position.is_flat (p : Position) : Bool :=
  p.market_position = MarketPosition.FLAT

/-- `nautilus_trader.commands.ModifyOrder` — the fields read by the engine
(trader/strategy ids, GUID and timestamp elided, see file comment). -/
structure ModifyOrder where
  order_id : OrderId
  modified_price : Price
  deriving DecidableEq, Repr

/-- The commands `TradeStrategy` forwards to `ExecutionClient.execute_command`
(payload fields the engine sets from its own state; GUID/timestamp elided). -/
inductive Command where
  | collateralInquiry
  | submitOrder (position_id : PositionId) (order : Order)
  | submitAtomicOrder (position_id : PositionId) (atomic_order : AtomicOrder)
  | modifyOrder (command : ModifyOrder)
  | cancelOrder (order_id : OrderId) (cancel_reason : Option String)
  deriving DecidableEq, Repr

/-- `nautilus_trader.model.events` — the event variants `handle_event`
dispatches on, carrying the `order_id` the reducer reads.  `other` stands for
every variant the reducer only logs (AccountEvent, PositionEvent, TimeEvent). -/
inductive Event where
  | orderRejected (order_id : OrderId)
  | orderCancelled (order_id : OrderId)
  | orderFilled (order_id : OrderId)
  | orderPartiallyFilled (order_id : OrderId)
  | orderCancelReject (order_id : OrderId)
  | orderModified (order_id : OrderId)
  | orderExpired (order_id : OrderId)
  | other
  deriving DecidableEq, Repr

/-- User hooks invoked by the engine (`on_start`, `on_tick`, ...). -/
inductive Hook where
  | onStart
  | onTick (tick : Tick)
  | onBar (bar_type : BarType) (bar : Bar)
  | onEvent (event : Event)
  | onStop
  | onReset
  | onDispose
  deriving DecidableEq, Repr

/-- One structured constructor per log site of the embedded methods. -/
inductive LogMsg where
  | infoEvent (event : Event)
  | warnEvent (event : Event)
  | infoStopping
  | infoStopped
  | infoResetting
  | infoReset
  | infoSubmitting (order : Order) (position_id : PositionId)
  | infoSubmittingAtomic (atomic_order : AtomicOrder) (position_id : PositionId)
  | infoModifying (order_id : OrderId) (new_price : Price)
  | warnBufferingModify (order_id : OrderId) (new_price : Price)
  | infoReissuingModify (order_id : OrderId) (price : Price)
  | infoCancelling (order : Order)
  | infoFlattening (position_id : PositionId)
  | warnAlreadyFlat (position_id : PositionId)
  | warnNoActivePositions
  | warnResidualEntry (order : Order)
  | warnResidualStopLoss (order : Order)
  | warnResidualTakeProfit (order : Order)
  | warnResidualChild (order_id : OrderId)
  | warnResidualBuffered (order_id : OrderId) (command : ModifyOrder)
  | errorNotRegistered (operation : String)
  | errorResetWhileRunning
  deriving DecidableEq, Repr

/-- Observable effects of a method call, in program order. -/
inductive Effect where
  | execCommand (command : Command)
  | cancelAllTimeAlerts
  | cancelAllTimers
  | setRunning (value : Bool)
  | log (message : LogMsg)
  | hook (h : Hook)
  deriving DecidableEq, Repr

end Nautilus

/-! ### Insertion-ordered dictionaries (Python `dict`) -/

namespace Nautilus

/-- A Python `dict` with `Nat`-like keys: an association list in insertion
order.  Assignment updates in place when the key is present and appends
otherwise; `del` removes the key's pair. -/
abbrev Dict (α β : Type) := List (α × β)

namespace Dict

variable {α β : Type} [DecidableEq α]

def contains (d : Dict α β) (k : α) : Bool :=
  d.any fun p => p.1 = k

def lookup (d : Dict α β) (k : α) : Option β :=
  (d.find? fun p => p.1 = k).map Prod.snd

/-- `d[k] = v` -/
def insert (d : Dict α β) (k : α) (v : β) : Dict α β :=
  if contains d k then
    d.map fun p => if p.1 = k then (k, v) else p
  else
    d ++ [(k, v)]

/-- `del d[k]` (no-op when absent; every embedded call site checks first). -/
def erase (d : Dict α β) (k : α) : Dict α β :=
  d.filter fun p => ¬ p.1 = k

def values (d : Dict α β) : List β :=
  d.map Prod.snd

def keys (d : Dict α β) : List α :=
  d.map Prod.fst

@[simp] theorem contains_nil (k : α) : Dict.contains ([] : Dict α β) k = false := rfl

@[simp] theorem lookup_nil (k : α) : Dict.lookup ([] : Dict α β) k = none := rfl

@[simp] theorem contains_cons (p : α × β) (t : Dict α β) (k : α) :
    Dict.contains (p :: t) k = (decide (p.1 = k) || Dict.contains t k) := by
  simp [Dict.contains]

theorem erase_cons (p : α × β) (t : Dict α β) (k : α) :
    Dict.erase (p :: t) k =
      if p.1 = k then Dict.erase t k else p :: Dict.erase t k := by
  by_cases h : p.1 = k <;> simp [Dict.erase, List.filter_cons, h]

theorem contains_erase_self (d : Dict α β) (k : α) :
    Dict.contains (Dict.erase d k) k = false := by
  induction d with
  | nil => rfl
  | cons p t ih =>
    rw [erase_cons]
    by_cases h : p.1 = k <;> simp [h, ih]

theorem contains_of_contains_erase (d : Dict α β) (k k' : α) :
    Dict.contains (Dict.erase d k') k = true → Dict.contains d k = true := by
  induction d with
  | nil => simp [Dict.erase]
  | cons p t ih =>
    rw [erase_cons]
    by_cases h : p.1 = k' <;> simp [h]
    · intro hc
      exact Or.inr (ih hc)
    · rintro (hc | hc)
      · exact Or.inl hc
      · exact Or.inr (ih hc)

theorem contains_erase_of_ne (d : Dict α β) (k k' : α) (h : ¬ k = k') :
    Dict.contains (Dict.erase d k') k = Dict.contains d k := by
  induction d with
  | nil => rfl
  | cons p t ih =>
    rw [erase_cons]
    by_cases hp : p.1 = k'
    · have hne : ¬ p.1 = k := fun hk => h (by rw [← hk]; exact hp)
      have hne' : ¬ k' = k := fun hk => h hk.symm
      simp [hp, hne, hne', ih]
    · simp [hp, ih]

end Dict

end Nautilus

/-! ### The embedded engine: `TradeStrategy` (strategy.pyx) -/

namespace Nautilus

/-- An indicator as seen by the engine.  Concrete indicators live in the
external `nautilus_indicators` package; the spec gives their capability set
{update(bar), reset(), initialized}.  Modelled from the spec: a warm-up
counter with a period after which the indicator reports initialized;
`reset` returns every stateful value to its initial value. -/
structure Indicator where
  period : Nat
  count : Nat
  initialized : Bool
  deriving DecidableEq, Repr

/-- `IndicatorUpdater.update_bar(bar)` — feeds one bar to the wrapped
indicator.  The updater object of the source aliases the registered
indicator (both lists are appended in lockstep by `register_indicator`),
so the updater list and the indicator list are modelled as one. -/
def Indicator.update_bar (i : Indicator) (_bar : Bar) : Indicator :=
  let c := i.count + 1
  { i with count := c, initialized := decide (c ≥ i.period) }

def Indicator.reset (i : Indicator) : Indicator :=
  { i with count := 0, initialized := false }

/-- `OrderFactory` — holds an `OrderIdGenerator`; only the generator counter
matters to the engine claims (the string ids themselves are verified below
for `generators.pyx`). -/
structure OrderFactory where
  counter : Nat
  deriving DecidableEq, Repr

/-- `order_factory.market(symbol, order_side, quantity, label)` — a MARKET
order (no price) with a freshly generated id. -/
def OrderFactory.market (f : OrderFactory) (symbol : Symbol) (side : OrderSide)
    (quantity : Quantity) (label : String) : OrderFactory × Order :=
  let c := f.counter + 1
  ({ counter := c },
   { id := c, symbol := symbol, side := side, quantity := quantity,
     price := none, label := label })

def OrderFactory.reset (_f : OrderFactory) : OrderFactory :=
  { counter := 0 }

/-- `PositionIdGenerator` as held by the strategy (only `reset` is exercised
by the engine itself). -/
structure PositionIdGen where
  counter : Nat
  deriving DecidableEq, Repr

def PositionIdGen.reset (_g : PositionIdGen) : PositionIdGen :=
  { counter := 0 }

/-- The external collaborators (`ExecutionClient` and `Portfolio`) as a
read-only oracle: `TradeStrategy` only queries them (all mutation flows
through `execute_command`, captured as an `Effect`). -/
structure Env where
  /-- `portfolio.get_position_for_order(order_id)` -/
  position_for_order : OrderId → Option Position
  /-- `portfolio.get_position(position_id)` -/
  get_position : PositionId → Position
  /-- `portfolio.get_positions_active(strategy_id)` -/
  positions_active : Dict PositionId Position
  /-- `portfolio.is_strategy_flat(strategy_id)` -/
  is_strategy_flat : Bool
  /-- `exec_client.get_order(order_id).price` -/
  order_price : OrderId → Price
  /-- `exec_client.get_orders(strategy_id)`, each with its `is_active` flag -/
  orders : Dict OrderId (Order × Bool)

/-- The mutable state of a `TradeStrategy` instance (strategy.pyx
`__init__`).  Identification fields, logger, clock and GUID factory are
external collaborators carrying no engine state and are elided. -/
structure TradeStrategy where
  flatten_on_sl_reject : Bool
  flatten_on_stop : Bool
  cancel_all_orders_on_stop : Bool
  bar_capacity : Nat
  order_factory : OrderFactory
  position_id_generator : PositionIdGen
  _entry_orders : Dict OrderId Order
  _stop_loss_orders : Dict OrderId Order
  _take_profit_orders : Dict OrderId Order
  _atomic_order_ids : Dict OrderId (List OrderId)
  _ticks : Dict Symbol Tick
  _bars : Dict BarType (List Bar)
  _indicators : Dict BarType (List Indicator)
  _modify_order_buffer : Dict OrderId ModifyOrder
  is_running : Bool
  is_exec_client_registered : Bool
  deriving DecidableEq, Repr

/-- `TradeStrategy.__init__` (ledgers and caches empty, not running,
no execution client registered yet). -/
def mkStrategy (flatten_on_sl_reject flatten_on_stop cancel_all_orders_on_stop : Bool)
    (bar_capacity : Nat) : TradeStrategy where
  flatten_on_sl_reject := flatten_on_sl_reject
  flatten_on_stop := flatten_on_stop
  cancel_all_orders_on_stop := cancel_all_orders_on_stop
  bar_capacity := bar_capacity
  order_factory := { counter := 0 }
  position_id_generator := { counter := 0 }
  _entry_orders := []
  _stop_loss_orders := []
  _take_profit_orders := []
  _atomic_order_ids := []
  _ticks := []
  _bars := []
  _indicators := []
  _modify_order_buffer := []
  is_running := false
  is_exec_client_registered := false

namespace TradeStrategy

/-- `register_execution_client(client)` (the registration flag is the only
engine-state consequence). -/
def register_execution_client (s : TradeStrategy) : TradeStrategy :=
  { s with is_exec_client_registered := true }

/-- `register_indicator(bar_type, indicator, update_method)` — appends to the
bar type's indicator list (and in lockstep to the updater list, modelled as
the same list). -/
def register_indicator (s : TradeStrategy) (bar_type : BarType)
    (indicator : Indicator) : TradeStrategy :=
  let cur := (Dict.lookup s._indicators bar_type).getD []
  { s with _indicators := Dict.insert s._indicators bar_type (cur ++ [indicator]) }

/-- `register_entry_order(order, position_id)` — the `position_id` argument
is accepted but never stored (see the source). -/
def register_entry_order (s : TradeStrategy) (order : Order)
    (_position_id : PositionId) : TradeStrategy :=
  { s with _entry_orders := Dict.insert s._entry_orders order.id order }

/-- `register_stop_loss_order(order, position_id)` -/
def register_stop_loss_order (s : TradeStrategy) (order : Order)
    (_position_id : PositionId) : TradeStrategy :=
  { s with _stop_loss_orders := Dict.insert s._stop_loss_orders order.id order }

/-- `register_take_profit_order(order, position_id)` -/
def register_take_profit_order (s : TradeStrategy) (order : Order)
    (_position_id : PositionId) : TradeStrategy :=
  { s with _take_profit_orders := Dict.insert s._take_profit_orders order.id order }

/-- `handle_tick(tick)` — update the last held tick, then call `on_tick`
if the strategy is running (hook exceptions are caught and logged). -/
def handle_tick (s : TradeStrategy) (tick : Tick) : TradeStrategy × List Effect :=
  let s1 := { s with _ticks := Dict.insert s._ticks tick.symbol tick }
  (s1, if s1.is_running then [Effect.hook (.onTick tick)] else [])

/-- `handle_bar(bar_type, bar)` — create the bounded deque on first use,
append-front the bar (dropping beyond `bar_capacity`), feed every updater
bound to the bar type, then call `on_bar` if running. -/
def handle_bar (s : TradeStrategy) (bar_type : BarType) (bar : Bar) :
    TradeStrategy × List Effect :=
  let bars0 := if Dict.contains s._bars bar_type then s._bars
               else Dict.insert s._bars bar_type []
  let deq := (Dict.lookup bars0 bar_type).getD []
  let newDeq := List.take s.bar_capacity (bar :: deq)
  let s1 := { s with _bars := Dict.insert bars0 bar_type newDeq }
  let updated := ((Dict.lookup s1._indicators bar_type).getD []).map
    (fun i => i.update_bar bar)
  let s2 :=
    if Dict.contains s1._indicators bar_type then
      { s1 with _indicators := Dict.insert s1._indicators bar_type updated }
    else s1
  (s2, if s2.is_running then [Effect.hook (.onBar bar_type bar)] else [])

/-- `_remove_from_registered_orders(order_id)` — remove the id from the
first register that holds it (`if / elif / elif` in the source). -/
def _remove_from_registered_orders (s : TradeStrategy) (order_id : OrderId) :
    TradeStrategy :=
  if Dict.contains s._entry_orders order_id then
    { s with _entry_orders := Dict.erase s._entry_orders order_id }
  else if Dict.contains s._stop_loss_orders order_id then
    { s with _stop_loss_orders := Dict.erase s._stop_loss_orders order_id }
  else if Dict.contains s._take_profit_orders order_id then
    { s with _take_profit_orders := Dict.erase s._take_profit_orders order_id }
  else s

/-- `_remove_atomic_child_orders(order_id)` — deregister every atomic child
of the id, then drop the parent→children entry. -/
def _remove_atomic_child_orders (s : TradeStrategy) (order_id : OrderId) :
    TradeStrategy :=
  if Dict.contains s._atomic_order_ids order_id then
    let children := (Dict.lookup s._atomic_order_ids order_id).getD []
    let s1 := children.foldl _remove_from_registered_orders s
    { s1 with _atomic_order_ids := Dict.erase s1._atomic_order_ids order_id }
  else s

/-- `_process_modify_order_buffer(order_id)` — re-issue the buffered command
when its price differs from the order's current price as reported by the
execution client; drop the buffer entry either way. -/
def _process_modify_order_buffer (env : Env) (s : TradeStrategy)
    (order_id : OrderId) : TradeStrategy × List Effect :=
  match Dict.lookup s._modify_order_buffer order_id with
  | none => (s, [])  -- unreachable: every caller checks membership first
  | some buffered_command =>
    let fx :=
      if buffered_command.modified_price ≠ env.order_price order_id then
        [Effect.log (.infoReissuingModify buffered_command.order_id
            buffered_command.modified_price),
         Effect.execCommand (.modifyOrder buffered_command)]
      else []
    ({ s with _modify_order_buffer := Dict.erase s._modify_order_buffer order_id },
     fx)

end TradeStrategy

end Nautilus

namespace Nautilus

namespace TradeStrategy

/-- `get_opposite_side(side)` -/
def get_opposite_side (side : OrderSide) : OrderSide :=
  if side = OrderSide.SELL then OrderSide.BUY else OrderSide.SELL

/-- `get_flatten_side(market_position)` — `none` models the `ValueError`
raised on a FLAT position (unreachable at every embedded call site, which
all test `is_flat` first). -/
def get_flatten_side : MarketPosition → Option OrderSide
  | MarketPosition.LONG => some OrderSide.SELL
  | MarketPosition.SHORT => some OrderSide.BUY
  | MarketPosition.FLAT => none

/-- `submit_order(order, position_id)` — forward a SubmitOrder command. -/
def submit_order (s : TradeStrategy) (order : Order) (position_id : PositionId) :
    TradeStrategy × List Effect :=
  if !s.is_exec_client_registered then
    (s, [Effect.log (.errorNotRegistered "submit order")])
  else
    (s, [Effect.log (.infoSubmitting order position_id),
         Effect.execCommand (.submitOrder position_id order)])

/-- `submit_entry_order(order, position_id)` — register as entry, submit. -/
def submit_entry_order (s : TradeStrategy) (order : Order)
    (position_id : PositionId) : TradeStrategy × List Effect :=
  submit_order (register_entry_order s order position_id) order position_id

/-- `submit_stop_loss_order(order, position_id)` -/
def submit_stop_loss_order (s : TradeStrategy) (order : Order)
    (position_id : PositionId) : TradeStrategy × List Effect :=
  submit_order (register_stop_loss_order s order position_id) order position_id

/-- `submit_take_profit_order(order, position_id)` -/
def submit_take_profit_order (s : TradeStrategy) (order : Order)
    (position_id : PositionId) : TradeStrategy × List Effect :=
  submit_order (register_take_profit_order s order position_id) order position_id

/-- `submit_atomic_order(atomic_order, position_id)` — register all legs,
record the parent→children ids, forward a SubmitAtomicOrder command. -/
def submit_atomic_order (s : TradeStrategy) (atomic_order : AtomicOrder)
    (position_id : PositionId) : TradeStrategy × List Effect :=
  if !s.is_exec_client_registered then
    (s, [Effect.log (.errorNotRegistered "submit atomic order")])
  else
    let s1 := register_entry_order s atomic_order.entry position_id
    let s2 := register_stop_loss_order s1 atomic_order.stop_loss position_id
    let s3 :=
      if atomic_order.has_take_profit then
        match atomic_order.take_profit with
        | some tp => register_take_profit_order s2 tp position_id
        | none => s2
      else s2
    let child_order_ids :=
      match atomic_order.take_profit with
      | some tp => [atomic_order.stop_loss.id, tp.id]
      | none => [atomic_order.stop_loss.id]
    let newAtomic :=
      Dict.insert s3._atomic_order_ids atomic_order.entry.id child_order_ids
    let s4 := { s3 with _atomic_order_ids := newAtomic }
    (s4, [Effect.log (.infoSubmittingAtomic atomic_order position_id),
          Effect.execCommand (.submitAtomicOrder position_id atomic_order)])

/-- `modify_order(order, new_price)` — build the ModifyOrder command; when an
entry for the order id is already buffered, replace it and warn (without
forwarding); otherwise buffer it and forward it. -/
def modify_order (s : TradeStrategy) (order : Order) (new_price : Price) :
    TradeStrategy × List Effect :=
  if !s.is_exec_client_registered then
    (s, [Effect.log (.errorNotRegistered "modify order")])
  else
    let command : ModifyOrder := { order_id := order.id, modified_price := new_price }
    if Dict.contains s._modify_order_buffer order.id then
      ({ s with _modify_order_buffer :=
           Dict.insert s._modify_order_buffer order.id command },
       [Effect.log (.warnBufferingModify order.id new_price)])
    else
      ({ s with _modify_order_buffer :=
           Dict.insert s._modify_order_buffer order.id command },
       [Effect.log (.infoModifying order.id new_price),
        Effect.execCommand (.modifyOrder command)])

/-- `cancel_order(order, cancel_reason)` -/
def cancel_order (s : TradeStrategy) (order : Order)
    (cancel_reason : Option String) : TradeStrategy × List Effect :=
  if !s.is_exec_client_registered then
    (s, [Effect.log (.errorNotRegistered "cancel order")])
  else
    (s, [Effect.log (.infoCancelling order),
         Effect.execCommand (.cancelOrder order.id cancel_reason)])

/-- `cancel_all_orders(cancel_reason)` — a CancelOrder command for every
active order the execution client associates with this strategy. -/
def cancel_all_orders (env : Env) (s : TradeStrategy)
    (cancel_reason : Option String) : TradeStrategy × List Effect :=
  if !s.is_exec_client_registered then
    (s, [Effect.log (.errorNotRegistered "cancel all orders")])
  else
    (s, env.orders.filterMap fun p =>
      if p.2.2 then some (Effect.execCommand (.cancelOrder p.1 cancel_reason))
      else none)

/-- `flatten_position(position_id)` — fetch the position; warn when already
flat; otherwise build a market EXIT order on the flatten side and submit it. -/
def flatten_position (env : Env) (s : TradeStrategy) (position_id : PositionId) :
    TradeStrategy × List Effect :=
  if !s.is_exec_client_registered then
    (s, [Effect.log (.errorNotRegistered "flatten position")])
  else
    let position := env.get_position position_id
    if position.is_flat then
      (s, [Effect.log (.warnAlreadyFlat position_id)])
    else
      match get_flatten_side position.market_position with
      | none => (s, [])  -- unreachable: the is_flat guard precedes
      | some side =>
        let (f1, order) :=
          s.order_factory.market position.symbol side position.quantity "EXIT"
        let s1 := { s with order_factory := f1 }
        let (s2, fx) := submit_order s1 order position_id
        (s2, Effect.log (.infoFlattening position_id) :: fx)

/-- One iteration of the `flatten_all_positions` loop body over the items of
`portfolio.get_positions_active(strategy_id)`: skip (with a warning) a
position already flat, otherwise build the market EXIT order and submit. -/
def flatten_step (acc : TradeStrategy × List Effect)
    (pp : PositionId × Position) : TradeStrategy × List Effect :=
  let (sAcc, fxAcc) := acc
  let position := pp.2
  if position.is_flat then
    (sAcc, fxAcc ++ [Effect.log (.warnAlreadyFlat pp.1)])
  else
    match get_flatten_side position.market_position with
    | none => (sAcc, fxAcc)  -- unreachable: guarded by is_flat
    | some side =>
      let (f1, order) :=
        sAcc.order_factory.market position.symbol side position.quantity "EXIT"
      let s1 := { sAcc with order_factory := f1 }
      let (s2, fx) := submit_order s1 order pp.1
      (s2, fxAcc ++ [Effect.log (.infoFlattening pp.1)] ++ fx)

/-- `flatten_all_positions()` — flatten every active position, skipping (with
a warning) those already flat. -/
def flatten_all_positions (env : Env) (s : TradeStrategy) :
    TradeStrategy × List Effect :=
  if !s.is_exec_client_registered then
    (s, [Effect.log (.errorNotRegistered "flatten all positions")])
  else
    let positions := env.positions_active
    if positions.length = 0 then
      (s, [Effect.log LogMsg.warnNoActivePositions])
    else
      positions.foldl flatten_step (s, [])

/-- `handle_event(event)` — the order-event reducer, then `on_event` if the
strategy is running. -/
def handle_event (env : Env) (s : TradeStrategy) (event : Event) :
    TradeStrategy × List Effect :=
  let (s1, fx) :=
    match event with
    | .orderRejected oid =>
      let (sa, fa) :=
        if Dict.contains s._stop_loss_orders oid && s.flatten_on_sl_reject then
          match env.position_for_order oid with
          | some position =>
            if position.is_entered then flatten_position env s position.id
            else (s, [])
          | none => (s, [])
        else (s, [])
      let sb := _remove_atomic_child_orders sa oid
      let sc := _remove_from_registered_orders sb oid
      (sc, Effect.log (.warnEvent event) :: fa)
    | .orderCancelled oid =>
      let sb := _remove_atomic_child_orders s oid
      let sc := _remove_from_registered_orders sb oid
      (sc, [Effect.log (.infoEvent event)])
    | .orderFilled oid =>
      let sa :=
        if Dict.contains s._atomic_order_ids oid then
          { s with _atomic_order_ids := Dict.erase s._atomic_order_ids oid }
        else s
      (_remove_from_registered_orders sa oid, [Effect.log (.infoEvent event)])
    | .orderPartiallyFilled _ => (s, [Effect.log (.warnEvent event)])
    | .orderCancelReject oid =>
      if Dict.contains s._modify_order_buffer oid then
        let (sa, fa) := _process_modify_order_buffer env s oid
        (sa, Effect.log (.warnEvent event) :: fa)
      else (s, [Effect.log (.warnEvent event)])
    | .orderModified oid =>
      if Dict.contains s._modify_order_buffer oid then
        let (sa, fa) := _process_modify_order_buffer env s oid
        (sa, Effect.log (.infoEvent event) :: fa)
      else (s, [Effect.log (.infoEvent event)])
    | .orderExpired oid =>
      let sb := _remove_atomic_child_orders s oid
      let sc := _remove_from_registered_orders sb oid
      (sc, [Effect.log (.infoEvent event)])
    | .other => (s, [Effect.log (.infoEvent event)])
  (s1, fx ++ (if s1.is_running then [Effect.hook (.onEvent event)] else []))

/-- `start()` — set running, call `on_start`. -/
def start (s : TradeStrategy) : TradeStrategy × List Effect :=
  ({ s with is_running := true },
   [Effect.setRunning true, Effect.hook Hook.onStart])

/-- The residual-object warnings emitted near the end of `stop()`:
one per register entry, stop-loss, take-profit, atomic child and buffered
modify command left in the ledger, in that order. -/
def residual_warnings (s : TradeStrategy) : List Effect :=
  (Dict.values s._entry_orders).map (fun o => Effect.log (.warnResidualEntry o))
    ++ (Dict.values s._stop_loss_orders).map
        (fun o => Effect.log (.warnResidualStopLoss o))
    ++ (Dict.values s._take_profit_orders).map
        (fun o => Effect.log (.warnResidualTakeProfit o))
    ++ (s._atomic_order_ids.flatMap fun p =>
        p.2.map (fun cid => Effect.log (.warnResidualChild cid)))
    ++ (s._modify_order_buffer.map fun p =>
        Effect.log (.warnResidualBuffered p.1 p.2))

/-- `stop()` — clock cleanup; optional flatten of all positions; optional
cancel of all orders; `is_running = False`; residual warnings; `on_stop`.
(`p1`/`p2` are the state-and-effects of the two optional phases.) -/
def stop (env : Env) (s : TradeStrategy) : TradeStrategy × List Effect :=
  let fx0 := [Effect.log LogMsg.infoStopping,
              Effect.cancelAllTimeAlerts, Effect.cancelAllTimers]
  let p1 :=
    if s.flatten_on_stop then
      if !env.is_strategy_flat then flatten_all_positions env s
      else (s, [])
    else (s, [])
  let p2 :=
    if p1.1.cancel_all_orders_on_stop then
      cancel_all_orders env p1.1 (some "STOPPING STRATEGY")
    else (p1.1, [])
  let s3 := { p2.1 with is_running := false }
  let fx3 := residual_warnings s3
  (s3, fx0 ++ p1.2 ++ p2.2 ++ [Effect.setRunning false] ++ fx3
        ++ [Effect.hook Hook.onStop, Effect.log LogMsg.infoStopped])

/-- `reset()` — refused while running; otherwise reset the order factory and
position-id generator, clear the tick and bar caches, reset every registered
indicator, then call `on_reset`. -/
def reset (s : TradeStrategy) : TradeStrategy × List Effect :=
  if s.is_running then
    (s, [Effect.log LogMsg.errorResetWhileRunning])
  else
    let s1 :=
      { s with
        order_factory := s.order_factory.reset
        position_id_generator := s.position_id_generator.reset
        _ticks := []
        _bars := []
        _indicators := s._indicators.map fun p => (p.1, p.2.map Indicator.reset) }
    (s1, [Effect.log LogMsg.infoResetting, Effect.hook Hook.onReset,
          Effect.log LogMsg.infoReset])

/-- `bars(bar_type)` — `none` models the precondition `ValueError` when the
bar type is unknown. -/
def bars (s : TradeStrategy) (bar_type : BarType) : Option (List Bar) :=
  Dict.lookup s._bars bar_type

/-- `bar(bar_type, index)` — reverse indexing, index 0 is the latest bar;
`none` models both the precondition and `IndexError` failures. -/
def bar (s : TradeStrategy) (bar_type : BarType) (index : Nat) : Option Bar :=
  (Dict.lookup s._bars bar_type).bind fun l => l.get? index

/-- `last_bar(bar_type)` -/
def last_bar (s : TradeStrategy) (bar_type : BarType) : Option Bar :=
  (Dict.lookup s._bars bar_type).bind fun l => l.get? 0

/-- `last_tick(symbol)` -/
def last_tick (s : TradeStrategy) (symbol : Symbol) : Option Tick :=
  Dict.lookup s._ticks symbol

/-- `indicators_initialized(bar_type)` — `none` models the precondition
`ValueError` when no indicator list exists for the bar type; otherwise true
iff no indicator of the bar type reports uninitialized. -/
def indicators_initialized (s : TradeStrategy) (bar_type : BarType) :
    Option Bool :=
  match Dict.lookup s._indicators bar_type with
  | none => none
  | some l => some (l.all fun i => i.initialized)

/-- `indicators_initialized_all()` — folds over every registered indicator
list. -/
def indicators_initialized_all (s : TradeStrategy) : Bool :=
  (Dict.values s._indicators).all fun l => l.all fun i => i.initialized

end TradeStrategy

end Nautilus

/-! ### The embedded identifier generators (generators.pyx) -/

namespace Nautilus

/-- The components of `datetime` read by `_get_datetime_tag`. -/
structure Datetime where
  year : Nat
  month : Nat
  day : Nat
  hour : Nat
  minute : Nat
  second : Nat
  deriving DecidableEq, Repr

/-- Python `f'{n:02d}'` for a natural: zero-padded to width two. -/
def pad2 (n : Nat) : String :=
  if n < 10 then "0" ++ Nat.repr n else Nat.repr n

/-- `IdentifierGenerator._get_datetime_tag()` —
`f'{year}{month:02d}{day:02d}-{hour:02d}{minute:02d}{second:02d}'`
(the year is rendered unpadded). -/
def datetime_tag (t : Datetime) : String :=
  Nat.repr t.year ++ pad2 t.month ++ pad2 t.day ++ "-"
    ++ pad2 t.hour ++ pad2 t.minute ++ pad2 t.second

/-- `IdentifierGenerator` — `prefixStr` embeds the source field named prefix. -/
structure IdentifierGenerator where
  prefixStr : String
  id_tag_trader : String
  id_tag_strategy : String
  counter : Nat
  deriving DecidableEq, Repr

/-- `OrderIdGenerator.__init__` — prefix "O", counter 0. -/
def mkOrderIdGenerator (id_tag_trader id_tag_strategy : String) :
    IdentifierGenerator :=
  { prefixStr := "O", id_tag_trader := id_tag_trader,
    id_tag_strategy := id_tag_strategy, counter := 0 }

/-- `PositionIdGenerator.__init__` — prefix "P", counter 0. -/
def mkPositionIdGenerator (id_tag_trader id_tag_strategy : String) :
    IdentifierGenerator :=
  { prefixStr := "P", id_tag_trader := id_tag_trader,
    id_tag_strategy := id_tag_strategy, counter := 0 }

namespace IdentifierGenerator

/-- `reset()` — return all stateful values to their initial value. -/
def reset (g : IdentifierGenerator) : IdentifierGenerator :=
  { g with counter := 0 }

/-- The f-string of `_generate()` rendered at counter value `c`:
`f'{prefix}-{datetime_tag}-{id_tag_trader}-{id_tag_strategy}-{c}'`. -/
def idString (g : IdentifierGenerator) (now : Datetime) (c : Nat) : String :=
  g.prefixStr ++ "-" ++ datetime_tag now ++ "-" ++ g.id_tag_trader ++ "-"
    ++ g.id_tag_strategy ++ "-" ++ Nat.repr c

/-- `_generate()` / `generate()` — increment the counter, render the
identifier.  `now` is `self._clock.time_now()`. -/
def generate (g : IdentifierGenerator) (now : Datetime) :
    IdentifierGenerator × String :=
  let g1 := { g with counter := g.counter + 1 }
  (g1, idString g now g1.counter)

/-- `n` successive `generate()` calls under a fixed clock time ("a single
run"), returning the final generator and the identifiers in call order. -/
def generate_run (g : IdentifierGenerator) (now : Datetime) :
    Nat → IdentifierGenerator × List String
  | 0 => (g, [])
  | n + 1 =>
    let (g1, s) := g.generate now
    let (g2, rest) := generate_run g1 now n
    (g2, s :: rest)

end IdentifierGenerator

end Nautilus

/-! ### Decimal rendering: `Nat.repr` is injective

`_generate()` embeds the counter via Python's `f'{self.counter}'`, i.e. the
decimal representation; distinctness of identifiers within a run reduces to
injectivity of `Nat.repr`, proved here against a structural recursion
`decDigits` equal to core's fuelled `Nat.toDigitsCore`. -/

namespace Nautilus

/-- Decimal digit characters of `n`, most significant first. -/
def decDigits (n : Nat) : List Char :=
  if n < 10 then [Nat.digitChar n]
  else decDigits (n / 10) ++ [Nat.digitChar (n % 10)]
termination_by n
decreasing_by
  exact Nat.div_lt_self (by omega) (by omega)

theorem decDigits_ne_nil (n : Nat) : decDigits n ≠ [] := by
  rw [decDigits]
  by_cases h : n < 10 <;> simp [h]

theorem toDigitsCore_eq_decDigits (f : Nat) :
    ∀ (n : Nat) (acc : List Char), n < f →
      Nat.toDigitsCore 10 f n acc = decDigits n ++ acc := by
  induction f with
  | zero => intro n acc h; omega
  | succ f ih =>
    intro n acc h
    simp only [Nat.toDigitsCore]
    by_cases h10 : n / 10 = 0
    · have hn : n < 10 := by omega
      rw [decDigits]
      simp [h10, hn, Nat.mod_eq_of_lt hn]
    · have hge : 10 ≤ n := by
        by_contra hc
        push_neg at hc
        exact h10 (Nat.div_eq_of_lt hc)
      have hlt : n / 10 < f := by
        have := Nat.div_lt_self (show 0 < n by omega) (show 1 < 10 by omega)
        omega
      rw [if_neg h10, ih (n / 10) (Nat.digitChar (n % 10) :: acc) hlt]
      conv_rhs => rw [decDigits]
      simp [show ¬ n < 10 by omega]

theorem toDigits_eq_decDigits (n : Nat) : Nat.toDigits 10 n = decDigits n := by
  have := toDigitsCore_eq_decDigits (n + 1) n [] (by omega)
  simpa [Nat.toDigits] using this

theorem decDigits_lt (n : Nat) (h : n < 10) :
    decDigits n = [Nat.digitChar n] := by
  rw [decDigits]
  simp [h]

theorem decDigits_ge (n : Nat) (h : ¬ n < 10) :
    decDigits n = decDigits (n / 10) ++ [Nat.digitChar (n % 10)] := by
  rw [decDigits]
  simp [h]

theorem digitChar_inj_lt :
    ∀ a b : Fin 10, Nat.digitChar a.val = Nat.digitChar b.val → a = b := by
  decide

theorem decDigits_inj : ∀ m n : Nat, decDigits m = decDigits n → m = n := by
  intro m
  induction m using Nat.strong_induction_on with
  | _ m ih =>
    intro n h
    by_cases hm : m < 10 <;> by_cases hn : n < 10
    · rw [decDigits_lt m hm, decDigits_lt n hn] at h
      have := digitChar_inj_lt ⟨m, hm⟩ ⟨n, hn⟩ (by simpa using h)
      simpa [Fin.ext_iff] using this
    · rw [decDigits_lt m hm, decDigits_ge n hn] at h
      have hlen := congrArg List.length h
      simp at hlen
      exact absurd hlen (decDigits_ne_nil (n / 10))
    · rw [decDigits_ge m hm, decDigits_lt n hn] at h
      have hlen := congrArg List.length h
      simp at hlen
      exact absurd hlen (decDigits_ne_nil (m / 10))
    · rw [decDigits_ge m hm, decDigits_ge n hn] at h
      have hr := congrArg List.reverse h
      simp only [List.reverse_append, List.reverse_cons, List.reverse_nil,
        List.nil_append, List.singleton_append, List.cons.injEq] at hr
      obtain ⟨hdig, htail⟩ := hr
      have hmod : m % 10 = n % 10 := by
        have := digitChar_inj_lt ⟨m % 10, Nat.mod_lt _ (by omega)⟩
          ⟨n % 10, Nat.mod_lt _ (by omega)⟩ (by simpa using hdig)
        simpa [Fin.ext_iff] using this
      have hdiv : m / 10 = n / 10 := by
        have hrev : decDigits (m / 10) = decDigits (n / 10) :=
          List.reverse_injective htail
        exact ih (m / 10) (Nat.div_lt_self (by omega) (by omega)) _ hrev
      omega

theorem nat_repr_inj {m n : Nat} (h : Nat.repr m = Nat.repr n) : m = n := by
  apply decDigits_inj
  have hm : Nat.repr m = (decDigits m).asString := by
    rw [Nat.repr, toDigits_eq_decDigits]
  have hn : Nat.repr n = (decDigits n).asString := by
    rw [Nat.repr, toDigits_eq_decDigits]
  rw [hm, hn] at h
  simpa [List.asString] using congrArg String.data h

end Nautilus

namespace Nautilus

theorem string_append_left_cancel {s t u : String} (h : s ++ t = s ++ u) :
    t = u := by
  apply String.ext
  have hd := congrArg String.data h
  simp only [String.data_append] at hd
  exact List.append_cancel_left hd

theorem idString_inj {g : IdentifierGenerator} {now : Datetime} {c1 c2 : Nat}
    (h : g.idString now c1 = g.idString now c2) : c1 = c2 := by
  unfold IdentifierGenerator.idString at h
  exact nat_repr_inj (string_append_left_cancel h)

theorem generate_run_counter (now : Datetime) :
    ∀ (n : Nat) (g : IdentifierGenerator),
      (g.generate_run now n).1.counter = g.counter + n := by
  intro n
  induction n with
  | zero =>
    intro g
    simp [IdentifierGenerator.generate_run]
  | succ n ih =>
    intro g
    simp only [IdentifierGenerator.generate_run, IdentifierGenerator.generate]
    rw [ih]
    show g.counter + 1 + n = g.counter + (n + 1)
    omega

theorem generate_run_strings (now : Datetime) :
    ∀ (n : Nat) (g : IdentifierGenerator),
      (g.generate_run now n).2 =
        (List.range n).map (fun i => g.idString now (g.counter + 1 + i)) := by
  intro n
  induction n with
  | zero =>
    intro g
    simp [IdentifierGenerator.generate_run]
  | succ n ih =>
    intro g
    simp only [IdentifierGenerator.generate_run, IdentifierGenerator.generate]
    rw [ih, List.range_succ_eq_map]
    simp only [List.map_cons, List.map_map, Nat.add_zero]
    refine congrArg₂ List.cons rfl ?_
    refine congrArg (fun f => List.map f (List.range n)) ?_
    funext i
    have harith : g.counter + 1 + 1 + i = g.counter + 1 + (i + 1) := by omega
    show IdentifierGenerator.idString _ now (g.counter + 1 + 1 + i) = _
    rw [harith]
    rfl

theorem generate_run_pairwise_ne (g : IdentifierGenerator) (now : Datetime)
    (n : Nat) : ((g.generate_run now n).2).Pairwise (· ≠ ·) := by
  rw [generate_run_strings]
  rw [List.pairwise_map]
  have hlt := List.pairwise_lt_range n
  refine hlt.imp ?_
  intro a b hab heq
  have := idString_inj heq
  omega

/-- C6: each `generate()` increments the internal counter and returns the
string `prefix-datetimetag-trader_tag-strategy_tag-counter`; with the clock
fixed at 2020-03-14 09:26:53, trader tag "000" and strategy tag "EMA-001",
three successive `OrderIdGenerator.generate()` calls produce exactly
"O-20200314-092653-000-EMA-001-1", "-2", "-3"; identifiers of a single run
are pairwise distinct with strictly increasing counter (the counter after
`n` calls is the start counter plus `n`, each call using start+call-index);
and `reset()` returns the counter to zero. -/
theorem C6_identifier_generation :
    (((mkOrderIdGenerator "000" "EMA-001").generate_run
        ⟨2020, 3, 14, 9, 26, 53⟩ 3).2 =
      ["O-20200314-092653-000-EMA-001-1",
       "O-20200314-092653-000-EMA-001-2",
       "O-20200314-092653-000-EMA-001-3"])
    ∧ (∀ (g : IdentifierGenerator) (now : Datetime),
        (g.generate now).1.counter = g.counter + 1
          ∧ (g.generate now).2 = g.idString now (g.counter + 1))
    ∧ (∀ (g : IdentifierGenerator) (now : Datetime) (n : Nat),
        (g.generate_run now n).1.counter = g.counter + n
          ∧ (g.generate_run now n).2 =
              (List.range n).map (fun i => g.idString now (g.counter + 1 + i))
          ∧ ((g.generate_run now n).2).Pairwise (· ≠ ·))
    ∧ (∀ g : IdentifierGenerator, g.reset.counter = 0) := by
  refine ⟨by decide, fun g now => ⟨rfl, rfl⟩, fun g now n => ?_, fun g => rfl⟩
  exact ⟨generate_run_counter now n g, generate_run_strings now n g,
    generate_run_pairwise_ne g now n⟩


/-! ### Dictionary lookup/insert lemmas -/

namespace Dict

variable {α β : Type} [DecidableEq α]

theorem lookup_cons (p : α × β) (t : Dict α β) (k : α) :
    Dict.lookup (p :: t) k =
      if p.1 = k then some p.2 else Dict.lookup t k := by
  by_cases h : p.1 = k <;> simp [Dict.lookup, List.find?_cons, h]

theorem lookup_eq_none_of_not_contains {d : Dict α β} {k : α}
    (h : Dict.contains d k = false) : Dict.lookup d k = none := by
  induction d with
  | nil => rfl
  | cons p t ih =>
    rw [contains_cons] at h
    rw [lookup_cons]
    simp only [Bool.or_eq_false_iff, decide_eq_false_iff_not] at h
    simp [h.1, ih h.2]

/-- The in-place-update branch of `insert`. -/
def replaceVal (d : Dict α β) (k : α) (v : β) : Dict α β :=
  d.map fun p => if p.1 = k then (k, v) else p

theorem insert_eq (d : Dict α β) (k : α) (v : β) :
    Dict.insert d k v =
      if Dict.contains d k then replaceVal d k v else d ++ [(k, v)] := rfl

theorem lookup_replaceVal_self {d : Dict α β} {k : α} (v : β)
    (h : Dict.contains d k = true) :
    Dict.lookup (replaceVal d k v) k = some v := by
  induction d with
  | nil => simp at h
  | cons p t ih =>
    by_cases hp : p.1 = k
    · simp [replaceVal, lookup_cons, hp]
    · rw [contains_cons] at h
      have ht : Dict.contains t k = true := by
        rcases Bool.or_eq_true_iff.mp h with h1 | h1
        · exact absurd (of_decide_eq_true h1) hp
        · exact h1
      simp only [replaceVal, List.map_cons, if_neg hp]
      rw [lookup_cons, if_neg hp]
      exact ih ht

theorem lookup_replaceVal_ne (d : Dict α β) {k k' : α} (v : β) (h : ¬ k' = k) :
    Dict.lookup (replaceVal d k v) k' = Dict.lookup d k' := by
  induction d with
  | nil => rfl
  | cons p t ih =>
    by_cases hp : p.1 = k
    · have hk : ¬ k = k' := fun he => h he.symm
      have hp' : ¬ p.1 = k' := by rw [hp]; exact hk
      simp only [replaceVal, List.map_cons, if_pos hp]
      rw [lookup_cons, lookup_cons, if_neg hk, if_neg hp']
      exact ih
    · simp only [replaceVal, List.map_cons, if_neg hp]
      rw [lookup_cons, lookup_cons]
      by_cases hp' : p.1 = k'
      · simp [hp']
      · rw [if_neg hp', if_neg hp']
        exact ih

theorem lookup_append_singleton_self {d : Dict α β} {k : α} (v : β)
    (h : Dict.contains d k = false) :
    Dict.lookup (d ++ [(k, v)]) k = some v := by
  induction d with
  | nil => simp [lookup_cons]
  | cons p t ih =>
    rw [contains_cons] at h
    simp only [Bool.or_eq_false_iff, decide_eq_false_iff_not] at h
    rw [List.cons_append, lookup_cons, if_neg h.1]
    exact ih h.2

theorem lookup_append_singleton_ne (d : Dict α β) {k k' : α} (v : β)
    (h : ¬ k' = k) :
    Dict.lookup (d ++ [(k, v)]) k' = Dict.lookup d k' := by
  induction d with
  | nil =>
    have : ¬ k = k' := fun he => h he.symm
    simp [lookup_cons, this]
  | cons p t ih =>
    rw [List.cons_append, lookup_cons, lookup_cons]
    by_cases hp : p.1 = k' <;> simp [hp, ih]

theorem lookup_insert_self (d : Dict α β) (k : α) (v : β) :
    Dict.lookup (Dict.insert d k v) k = some v := by
  rw [insert_eq]
  by_cases hc : Dict.contains d k
  · rw [if_pos hc]
    exact lookup_replaceVal_self v hc
  · rw [if_neg hc]
    exact lookup_append_singleton_self v (Bool.not_eq_true _ ▸ hc)

theorem lookup_insert_of_ne (d : Dict α β) {k k' : α} (v : β) (h : ¬ k' = k) :
    Dict.lookup (Dict.insert d k v) k' = Dict.lookup d k' := by
  rw [insert_eq]
  by_cases hc : Dict.contains d k
  · rw [if_pos hc]
    exact lookup_replaceVal_ne d v h
  · rw [if_neg hc]
    exact lookup_append_singleton_ne d v h

theorem contains_replaceVal (d : Dict α β) (k k' : α) (v : β) :
    Dict.contains (replaceVal d k v) k' = Dict.contains d k' := by
  induction d with
  | nil => rfl
  | cons p t ih =>
    by_cases hp : p.1 = k
    · simp only [replaceVal, List.map_cons, if_pos hp, contains_cons] at *
      rw [ih, hp]
    · simp only [replaceVal, List.map_cons, if_neg hp, contains_cons] at *
      rw [ih]

theorem contains_insert_self (d : Dict α β) (k : α) (v : β) :
    Dict.contains (Dict.insert d k v) k = true := by
  have hl := lookup_insert_self d k v
  by_cases hc : Dict.contains (Dict.insert d k v) k
  · exact hc
  · rw [lookup_eq_none_of_not_contains (Bool.of_not_eq_true hc)] at hl
    cases hl

theorem contains_insert_of_ne (d : Dict α β) {k k' : α} (v : β)
    (h : ¬ k' = k) :
    Dict.contains (Dict.insert d k v) k' = Dict.contains d k' := by
  rw [insert_eq]
  by_cases hc : Dict.contains d k
  · rw [if_pos hc]
    exact contains_replaceVal d k k' v
  · rw [if_neg hc]
    unfold Dict.contains
    rw [List.any_append]
    have hkk : (decide (k = k') : Bool) = false := by
      simp only [decide_eq_false_iff_not]
      exact fun he => h he.symm
    simp [hkk]

end Dict

end Nautilus

/-! ### The bar cache (handle_bar) -/

namespace Nautilus

theorem take_append_take {γ : Type} (n : Nat) (l m : List γ) :
    List.take n (l ++ List.take n m) = List.take n (l ++ m) := by
  rw [List.take_append_eq_append_take, List.take_append_eq_append_take,
    List.take_take]
  congr 1
  simp [Nat.min_def]

namespace TradeStrategy

/-- Fold `handle_bar` over a delivery sequence (resulting state only). -/
def deliver_bars (s : TradeStrategy) (ds : List (BarType × Bar)) :
    TradeStrategy :=
  ds.foldl (fun acc d => (handle_bar acc d.1 d.2).1) s

/-- The bars delivered for one bar type, in delivery order. -/
def bars_for (bt : BarType) (ds : List (BarType × Bar)) : List Bar :=
  ds.filterMap fun d => if d.1 = bt then some d.2 else none

theorem handle_bar_capacity (s : TradeStrategy) (bt : BarType) (b : Bar) :
    (handle_bar s bt b).1.bar_capacity = s.bar_capacity := by
  unfold handle_bar
  by_cases h : Dict.contains s._bars bt <;>
    by_cases h2 : Dict.contains s._indicators bt <;> simp [h, h2]

theorem handle_bar_bars_self (s : TradeStrategy) (bt : BarType) (b : Bar) :
    Dict.lookup (handle_bar s bt b).1._bars bt =
      some (List.take s.bar_capacity
        (b :: (Dict.lookup s._bars bt).getD [])) := by
  unfold handle_bar
  by_cases h : Dict.contains s._bars bt
  · by_cases h2 : Dict.contains s._indicators bt <;>
      simp [h, h2, Dict.lookup_insert_self]
  · have hn : Dict.lookup s._bars bt = none :=
      Dict.lookup_eq_none_of_not_contains (Bool.of_not_eq_true h)
    by_cases h2 : Dict.contains s._indicators bt <;>
      simp [h, h2, hn, Dict.lookup_insert_self]

theorem handle_bar_bars_other (s : TradeStrategy) (bt bt' : BarType) (b : Bar)
    (h : ¬ bt' = bt) :
    Dict.lookup (handle_bar s bt b).1._bars bt' =
      Dict.lookup s._bars bt' := by
  unfold handle_bar
  by_cases hc : Dict.contains s._bars bt
  · by_cases h2 : Dict.contains s._indicators bt <;>
      simp [hc, h2, Dict.lookup_insert_of_ne _ _ h]
  · by_cases h2 : Dict.contains s._indicators bt <;>
      simp [hc, h2, Dict.lookup_insert_of_ne _ _ h]

theorem deliver_bars_lookup (bt : BarType) :
    ∀ (ds : List (BarType × Bar)) (s : TradeStrategy),
      ((Dict.lookup s._bars bt).getD []).length ≤ s.bar_capacity →
      (Dict.lookup (deliver_bars s ds)._bars bt).getD [] =
        List.take s.bar_capacity
          ((bars_for bt ds).reverse ++ (Dict.lookup s._bars bt).getD []) := by
  intro ds
  induction ds with
  | nil =>
    intro s h
    simp only [deliver_bars, List.foldl_nil, bars_for, List.filterMap_nil,
      List.reverse_nil, List.nil_append]
    exact (List.take_of_length_le h).symm
  | cons d rest ih =>
    intro s h
    have hstep : deliver_bars s (d :: rest) =
        deliver_bars (handle_bar s d.1 d.2).1 rest := rfl
    rw [hstep]
    by_cases hd : d.1 = bt
    · subst hd
      have hlook := handle_bar_bars_self s d.1 d.2
      have hcap := handle_bar_capacity s d.1 d.2
      have hlen : ((Dict.lookup (handle_bar s d.1 d.2).1._bars d.1).getD
          []).length ≤ (handle_bar s d.1 d.2).1.bar_capacity := by
        rw [hlook, hcap]
        simp [List.length_take_le]
      rw [ih _ hlen, hlook, hcap]
      simp only [Option.getD_some]
      have hbars : bars_for d.1 ((d.1, d.2) :: rest) =
          d.2 :: bars_for d.1 rest := by
        simp [bars_for]
      rw [show (d.1, d.2) = d from rfl] at hbars
      rw [hbars, List.reverse_cons, List.append_assoc]
      rw [take_append_take]
      simp
    · have hlook := handle_bar_bars_other s d.1 bt d.2
        (fun he => hd he.symm)
      have hcap := handle_bar_capacity s d.1 d.2
      have hlen : ((Dict.lookup (handle_bar s d.1 d.2).1._bars bt).getD
          []).length ≤ (handle_bar s d.1 d.2).1.bar_capacity := by
        rw [hlook, hcap]
        exact h
      rw [ih _ hlen, hlook, hcap]
      have hbars : bars_for bt (d :: rest) = bars_for bt rest := by
        simp [bars_for, hd]
      rw [hbars]

end TradeStrategy

end Nautilus

namespace Nautilus

/-- C5: for every bar type and every `handle_bar` delivery sequence from a
freshly constructed strategy, the cached deque for that bar type is exactly
the `bar_capacity`-prefix of the delivered bars in reverse delivery order
(newest first, index 0 the most recent), hence never longer than
`bar_capacity`; with `bar_capacity = 3`, delivering b1,b2,b3,b4 for bar type
BT yields `bars(BT) = [b4, b3, b2]` and `last_bar(BT) = b4`. -/
theorem C5_bar_cache :
    (∀ (f1 f2 f3 : Bool) (cap : Nat) (ds : List (BarType × Bar)) (bt : BarType),
      (Dict.lookup (TradeStrategy.deliver_bars
          (mkStrategy f1 f2 f3 cap) ds)._bars bt).getD [] =
        List.take cap (TradeStrategy.bars_for bt ds).reverse
      ∧ ((Dict.lookup (TradeStrategy.deliver_bars
          (mkStrategy f1 f2 f3 cap) ds)._bars bt).getD []).length ≤ cap)
    ∧ ((TradeStrategy.deliver_bars (mkStrategy true true true 3)
          [(7, 1), (7, 2), (7, 3), (7, 4)]).bars 7 = some [4, 3, 2]
        ∧ (TradeStrategy.deliver_bars (mkStrategy true true true 3)
          [(7, 1), (7, 2), (7, 3), (7, 4)]).last_bar 7 = some 4) := by
  constructor
  · intro f1 f2 f3 cap ds bt
    have h0 : Dict.lookup (mkStrategy f1 f2 f3 cap)._bars bt = none := rfl
    have hcap : (mkStrategy f1 f2 f3 cap).bar_capacity = cap := rfl
    have h := TradeStrategy.deliver_bars_lookup bt ds (mkStrategy f1 f2 f3 cap)
      (by rw [h0]; simp)
    rw [h0, hcap] at h
    simp only [Option.getD_none, List.append_nil] at h
    refine ⟨h, ?_⟩
    rw [h]
    exact List.length_take_le cap _
  · exact ⟨by decide, by decide⟩

/-- C8: `handle_tick` updates the last-tick cache for the tick's symbol and
`handle_bar` prepends the bar to the cache and feeds every indicator bound to
the bar type, in both cases regardless of `is_running` (the mutated state
does not depend on the flag); the `on_tick` / `on_bar` user hooks are the
trailing effect of the transition — invoked exactly when `is_running` is
true, and then against the already-mutated state. -/
theorem C8_handlers_mutate_then_hook :
    (∀ (s : TradeStrategy) (t : Tick),
      (s.handle_tick t).1 = { s with _ticks := Dict.insert s._ticks t.symbol t }
        ∧ Dict.lookup (s.handle_tick t).1._ticks t.symbol = some t
        ∧ (s.handle_tick t).2 =
            (if s.is_running then [Effect.hook (.onTick t)] else []))
    ∧ (∀ (s : TradeStrategy) (bt : BarType) (b : Bar),
      Dict.lookup (s.handle_bar bt b).1._bars bt =
          some (List.take s.bar_capacity
            (b :: (Dict.lookup s._bars bt).getD []))
        ∧ (s.handle_bar bt b).1._indicators =
            (if Dict.contains s._indicators bt then
              Dict.insert s._indicators bt
                (((Dict.lookup s._indicators bt).getD []).map
                  (fun i => i.update_bar b))
            else s._indicators)
        ∧ (s.handle_bar bt b).2 =
            (if s.is_running then [Effect.hook (.onBar bt b)] else [])) := by
  constructor
  · intro s t
    refine ⟨rfl, ?_, rfl⟩
    exact Dict.lookup_insert_self s._ticks t.symbol t
  · intro s bt b
    refine ⟨TradeStrategy.handle_bar_bars_self s bt b, ?_, ?_⟩
    · unfold TradeStrategy.handle_bar
      by_cases h : Dict.contains s._bars bt <;>
        by_cases h2 : Dict.contains s._indicators bt <;> simp [h, h2]
    · unfold TradeStrategy.handle_bar
      by_cases h : Dict.contains s._bars bt <;>
        by_cases h2 : Dict.contains s._indicators bt <;> simp [h, h2]

/-- C10: `indicators_initialized_all()` is true iff every indicator
registered for any bar type reports initialized — in particular it is true
on a freshly constructed strategy with no indicators at all — whereas
`indicators_initialized(bar_type)` for a bar type with no registered
indicator list fails its precondition check (modelled as `none`) instead of
returning a value. -/
theorem C10_indicators_initialized :
    (∀ s : TradeStrategy,
      s.indicators_initialized_all = true ↔
        ∀ l ∈ Dict.values s._indicators, ∀ i ∈ l, i.initialized = true)
    ∧ (∀ f1 f2 f3 : Bool, ∀ cap : Nat,
        (mkStrategy f1 f2 f3 cap).indicators_initialized_all = true)
    ∧ (∀ (s : TradeStrategy) (bt : BarType),
        Dict.contains s._indicators bt = false →
          s.indicators_initialized bt = none)
    ∧ (∀ bt : BarType,
        (mkStrategy true true true 1000).indicators_initialized bt = none) := by
  refine ⟨?_, fun f1 f2 f3 cap => rfl, ?_, fun bt => rfl⟩
  · intro s
    simp [TradeStrategy.indicators_initialized_all, List.all_eq_true]
  · intro s bt h
    unfold TradeStrategy.indicators_initialized
    rw [Dict.lookup_eq_none_of_not_contains h]

/-- Witness for C10: the third conjunct applied at a fresh strategy and bar
type 0, its premise discharged by evaluation. -/
theorem C10_indicators_initialized_witness :
    (mkStrategy true true true 1000).indicators_initialized 0 = none :=
  C10_indicators_initialized.2.2.1 (mkStrategy true true true 1000) 0 rfl

/-- C7: `reset()` on a running strategy only logs an error and leaves the
state unchanged (`on_reset` is not called); on a non-running strategy it
clears the tick and bar caches, resets every registered indicator, resets
the order factory and the position-id generator, and then calls `on_reset`. -/
theorem C7_reset_behaviour (s : TradeStrategy) :
    (s.is_running = true →
      s.reset = (s, [Effect.log LogMsg.errorResetWhileRunning]))
    ∧ (s.is_running = false →
      (s.reset.1._ticks = []
        ∧ s.reset.1._bars = []
        ∧ s.reset.1._indicators =
            s._indicators.map (fun p => (p.1, p.2.map Indicator.reset))
        ∧ s.reset.1.order_factory = s.order_factory.reset
        ∧ s.reset.1.position_id_generator = s.position_id_generator.reset
        ∧ s.reset.2 = [Effect.log LogMsg.infoResetting, Effect.hook Hook.onReset,
            Effect.log LogMsg.infoReset])) := by
  constructor
  · intro h
    simp [TradeStrategy.reset, h]
  · intro h
    simp [TradeStrategy.reset, h]

/-- Witness for C7: both branches instantiated — a running strategy is left
unchanged with only the error log, and a fresh (non-running) strategy ends
with the `on_reset` hook after the engine-side resets. -/
theorem C7_reset_behaviour_witness :
    ({ mkStrategy true true true 3 with is_running := true }.reset =
      ({ mkStrategy true true true 3 with is_running := true },
       [Effect.log LogMsg.errorResetWhileRunning]))
    ∧ (mkStrategy true true true 3).reset.2 =
        [Effect.log LogMsg.infoResetting, Effect.hook Hook.onReset,
         Effect.log LogMsg.infoReset] :=
  ⟨(C7_reset_behaviour _).1 rfl, ((C7_reset_behaviour _).2 rfl).2.2.2.2.2⟩

/-- C9 (frame of `reset()`): whether refused or performed, `reset` leaves
the entry, stop-loss and take-profit registers, the atomic parent→children
map, the modify-order buffer — and every other field apart from the tick
cache, bar cache, indicator registry, order factory and position-id
generator — unchanged. -/
theorem C9_reset_frame (s : TradeStrategy) :
    s.reset.1._entry_orders = s._entry_orders
    ∧ s.reset.1._stop_loss_orders = s._stop_loss_orders
    ∧ s.reset.1._take_profit_orders = s._take_profit_orders
    ∧ s.reset.1._atomic_order_ids = s._atomic_order_ids
    ∧ s.reset.1._modify_order_buffer = s._modify_order_buffer
    ∧ s.reset.1.flatten_on_sl_reject = s.flatten_on_sl_reject
    ∧ s.reset.1.flatten_on_stop = s.flatten_on_stop
    ∧ s.reset.1.cancel_all_orders_on_stop = s.cancel_all_orders_on_stop
    ∧ s.reset.1.bar_capacity = s.bar_capacity
    ∧ s.reset.1.is_running = s.is_running
    ∧ s.reset.1.is_exec_client_registered = s.is_exec_client_registered := by
  by_cases h : s.is_running <;> simp [TradeStrategy.reset, h]

/-- The commands forwarded to the execution client within an effect trace. -/
def execCommands (fx : List Effect) : List Command :=
  fx.filterMap fun e =>
    match e with
    | Effect.execCommand c => some c
    | _ => none

namespace Dict

theorem contains_of_lookup_some {α β : Type} [DecidableEq α] {d : Dict α β}
    {k : α} {v : β} (h : Dict.lookup d k = some v) :
    Dict.contains d k = true := by
  by_cases hc : Dict.contains d k
  · exact hc
  · rw [lookup_eq_none_of_not_contains (Bool.of_not_eq_true hc)] at h
    cases h

end Dict

/-- C2: `modify_order(order, new_price)` consults the modify buffer — when a
command for the order id is already buffered it replaces it with the new
command and only warns (nothing is forwarded to the execution client);
otherwise it buffers and forwards the command.  On a subsequent
OrderModified or OrderCancelReject for an id with a buffer entry, the drain
forwards the buffered command if and only if its price differs from the
order's current price as reported by the execution client, and removes the
buffer entry in either case. -/
theorem C2_modify_coalescing :
    (∀ (s : TradeStrategy) (order : Order) (new_price : Price),
      s.is_exec_client_registered = true →
      (Dict.contains s._modify_order_buffer order.id = true →
        s.modify_order order new_price =
          ({ s with _modify_order_buffer :=
              Dict.insert s._modify_order_buffer order.id ⟨order.id, new_price⟩ },
           [Effect.log (.warnBufferingModify order.id new_price)]))
      ∧ (Dict.contains s._modify_order_buffer order.id = false →
        s.modify_order order new_price =
          ({ s with _modify_order_buffer :=
              Dict.insert s._modify_order_buffer order.id ⟨order.id, new_price⟩ },
           [Effect.log (.infoModifying order.id new_price),
            Effect.execCommand (.modifyOrder ⟨order.id, new_price⟩)])))
    ∧ (∀ (env : Env) (s : TradeStrategy) (oid : OrderId) (cmd : ModifyOrder)
        (event : Event),
      Dict.lookup s._modify_order_buffer oid = some cmd →
      (event = Event.orderModified oid ∨ event = Event.orderCancelReject oid) →
      ((TradeStrategy.handle_event env s event).1._modify_order_buffer =
          Dict.erase s._modify_order_buffer oid
        ∧ execCommands (TradeStrategy.handle_event env s event).2 =
            (if cmd.modified_price ≠ env.order_price oid
             then [Command.modifyOrder cmd] else []))) := by
  constructor
  · intro s order new_price hreg
    constructor
    · intro hc
      simp [TradeStrategy.modify_order, hreg, hc]
    · intro hc
      simp [TradeStrategy.modify_order, hreg, hc]
  · intro env s oid cmd event hbuf hev
    have hc : Dict.contains s._modify_order_buffer oid = true :=
      Dict.contains_of_lookup_some hbuf
    rcases hev with hev | hev <;> subst hev <;>
      · simp only [TradeStrategy.handle_event, hc, if_true,
          TradeStrategy._process_modify_order_buffer, hbuf]
        by_cases hp : cmd.modified_price ≠ env.order_price oid <;>
          by_cases hr : s.is_running <;>
          simp [hp, hr, execCommands]

/-- A concrete execution-client/portfolio oracle for instantiations:
no positions, every order's current price reported as 99. -/
def env0 : Env where
  position_for_order := fun _ => none
  get_position := fun pid =>
    { id := pid, symbol := 0, market_position := MarketPosition.FLAT,
      quantity := 0, is_entered := false }
  positions_active := []
  is_strategy_flat := true
  order_price := fun _ => 99
  orders := []

/-- A concrete order with id 5. -/
def order5 : Order :=
  { id := 5, symbol := 1, side := OrderSide.BUY, quantity := 10,
    price := some 100, label := "" }

/-- A strategy with a registered execution client and a buffered
ModifyOrder (price 100) for order id 5. -/
def sBufC2 : TradeStrategy :=
  { mkStrategy true true true 1000 with
      is_exec_client_registered := true,
      _modify_order_buffer := [(5, ⟨5, 100⟩)] }

/-- Witness for C2: with order 5 already buffered, a second modify only
replaces the buffer entry and warns; the OrderModified ack drains the buffer,
re-issuing because the buffered price 100 differs from the reported 99. -/
theorem C2_modify_coalescing_witness :
    (sBufC2.modify_order order5 120 =
      ({ sBufC2 with _modify_order_buffer :=
          Dict.insert sBufC2._modify_order_buffer 5 ⟨5, 120⟩ },
       [Effect.log (.warnBufferingModify 5 120)]))
    ∧ ((TradeStrategy.handle_event env0 sBufC2
          (Event.orderModified 5)).1._modify_order_buffer =
        Dict.erase sBufC2._modify_order_buffer 5
      ∧ execCommands (TradeStrategy.handle_event env0 sBufC2
          (Event.orderModified 5)).2 =
        (if (⟨5, 100⟩ : ModifyOrder).modified_price ≠ env0.order_price 5
         then [Command.modifyOrder ⟨5, 100⟩] else [])) :=
  ⟨((C2_modify_coalescing.1 sBufC2 order5 120) rfl).1 rfl,
   C2_modify_coalescing.2 env0 sBufC2 5 ⟨5, 100⟩ _ rfl (Or.inl rfl)⟩

/-! ### Terminal-event cleanup of the order registers -/

namespace TradeStrategy

/-- In how many of the three registers an order id currently appears. -/
def regCount (s : TradeStrategy) (oid : OrderId) : Nat :=
  (if Dict.contains s._entry_orders oid = true then 1 else 0)
    + (if Dict.contains s._stop_loss_orders oid = true then 1 else 0)
    + (if Dict.contains s._take_profit_orders oid = true then 1 else 0)

theorem remove_registered_clears (s : TradeStrategy) (oid : OrderId)
    (h : regCount s oid ≤ 1) :
    Dict.contains (_remove_from_registered_orders s oid)._entry_orders oid = false
    ∧ Dict.contains
        (_remove_from_registered_orders s oid)._stop_loss_orders oid = false
    ∧ Dict.contains
        (_remove_from_registered_orders s oid)._take_profit_orders oid = false := by
  unfold _remove_from_registered_orders
  by_cases h1 : Dict.contains s._entry_orders oid = true
  · have h2 : Dict.contains s._stop_loss_orders oid = false := by
      rcases Bool.eq_false_or_eq_true (Dict.contains s._stop_loss_orders oid)
        with hh | hh
      · exfalso
        rcases Bool.eq_false_or_eq_true (Dict.contains s._take_profit_orders oid)
          with h3 | h3 <;> simp [regCount, h1, hh, h3] at h
      · exact hh
    have h3 : Dict.contains s._take_profit_orders oid = false := by
      rcases Bool.eq_false_or_eq_true (Dict.contains s._take_profit_orders oid)
        with hh | hh
      · exfalso
        rcases Bool.eq_false_or_eq_true (Dict.contains s._stop_loss_orders oid)
          with h3 | h3 <;> simp [regCount, h1, hh, h3] at h
      · exact hh
    rw [if_pos h1]
    exact ⟨Dict.contains_erase_self _ _, h2, h3⟩
  · rw [if_neg h1]
    have h1f : Dict.contains s._entry_orders oid = false :=
      Bool.of_not_eq_true h1
    by_cases h2 : Dict.contains s._stop_loss_orders oid = true
    · have h3 : Dict.contains s._take_profit_orders oid = false := by
        rcases Bool.eq_false_or_eq_true (Dict.contains s._take_profit_orders oid)
          with hh | hh
        · exfalso
          rcases Bool.eq_false_or_eq_true (Dict.contains s._entry_orders oid)
            with h3 | h3 <;> simp [regCount, h2, hh, h3] at h
        · exact hh
      rw [if_pos h2]
      exact ⟨h1f, Dict.contains_erase_self _ _, h3⟩
    · rw [if_neg h2]
      have h2f : Dict.contains s._stop_loss_orders oid = false :=
        Bool.of_not_eq_true h2
      by_cases h3 : Dict.contains s._take_profit_orders oid = true
      · rw [if_pos h3]
        exact ⟨h1f, h2f, Dict.contains_erase_self _ _⟩
      · rw [if_neg h3]
        exact ⟨h1f, h2f, Bool.of_not_eq_true h3⟩

theorem remove_registered_mono (s : TradeStrategy) (x oid : OrderId) :
    (Dict.contains (_remove_from_registered_orders s x)._entry_orders oid = true →
      Dict.contains s._entry_orders oid = true)
    ∧ (Dict.contains
        (_remove_from_registered_orders s x)._stop_loss_orders oid = true →
      Dict.contains s._stop_loss_orders oid = true)
    ∧ (Dict.contains
        (_remove_from_registered_orders s x)._take_profit_orders oid = true →
      Dict.contains s._take_profit_orders oid = true) := by
  unfold _remove_from_registered_orders
  by_cases h1 : Dict.contains s._entry_orders x = true
  · rw [if_pos h1]
    exact ⟨fun hc => Dict.contains_of_contains_erase _ _ _ hc, id, id⟩
  · rw [if_neg h1]
    by_cases h2 : Dict.contains s._stop_loss_orders x = true
    · rw [if_pos h2]
      exact ⟨id, fun hc => Dict.contains_of_contains_erase _ _ _ hc, id⟩
    · rw [if_neg h2]
      by_cases h3 : Dict.contains s._take_profit_orders x = true
      · rw [if_pos h3]
        exact ⟨id, id, fun hc => Dict.contains_of_contains_erase _ _ _ hc⟩
      · rw [if_neg h3]
        exact ⟨id, id, id⟩

theorem regCount_remove_le (s : TradeStrategy) (x oid : OrderId) :
    regCount (_remove_from_registered_orders s x) oid ≤ regCount s oid := by
  obtain ⟨m1, m2, m3⟩ := remove_registered_mono s x oid
  unfold regCount
  have e1 : (if Dict.contains
        (_remove_from_registered_orders s x)._entry_orders oid = true
      then 1 else 0)
      ≤ (if Dict.contains s._entry_orders oid = true then 1 else 0) := by
    by_cases c : Dict.contains
        (_remove_from_registered_orders s x)._entry_orders oid = true
    · rw [if_pos c, if_pos (m1 c)]
    · rw [if_neg c]
      exact Nat.zero_le _
  have e2 : (if Dict.contains
        (_remove_from_registered_orders s x)._stop_loss_orders oid = true
      then 1 else 0)
      ≤ (if Dict.contains s._stop_loss_orders oid = true then 1 else 0) := by
    by_cases c : Dict.contains
        (_remove_from_registered_orders s x)._stop_loss_orders oid = true
    · rw [if_pos c, if_pos (m2 c)]
    · rw [if_neg c]
      exact Nat.zero_le _
  have e3 : (if Dict.contains
        (_remove_from_registered_orders s x)._take_profit_orders oid = true
      then 1 else 0)
      ≤ (if Dict.contains s._take_profit_orders oid = true then 1 else 0) := by
    by_cases c : Dict.contains
        (_remove_from_registered_orders s x)._take_profit_orders oid = true
    · rw [if_pos c, if_pos (m3 c)]
    · rw [if_neg c]
      exact Nat.zero_le _
  exact Nat.add_le_add (Nat.add_le_add e1 e2) e3

theorem regCount_foldl_remove_le (oid : OrderId) :
    ∀ (children : List OrderId) (s : TradeStrategy),
      regCount (children.foldl _remove_from_registered_orders s) oid ≤
        regCount s oid := by
  intro children
  induction children with
  | nil => intro s; exact Nat.le_refl _
  | cons c rest ih =>
    intro s
    calc regCount ((c :: rest).foldl _remove_from_registered_orders s) oid
        = regCount (rest.foldl _remove_from_registered_orders
            (_remove_from_registered_orders s c)) oid := rfl
      _ ≤ regCount (_remove_from_registered_orders s c) oid := ih _
      _ ≤ regCount s oid := regCount_remove_le s c oid

theorem regCount_remove_atomic_le (s : TradeStrategy) (x oid : OrderId) :
    regCount (_remove_atomic_child_orders s x) oid ≤ regCount s oid := by
  unfold _remove_atomic_child_orders
  by_cases h : Dict.contains s._atomic_order_ids x = true
  · rw [if_pos h]
    have hfold := regCount_foldl_remove_le oid
      ((Dict.lookup s._atomic_order_ids x).getD []) s
    exact hfold
  · rw [if_neg h]

theorem submit_order_state (s : TradeStrategy) (o : Order) (pid : PositionId) :
    (submit_order s o pid).1 = s := by
  unfold submit_order
  by_cases h : s.is_exec_client_registered <;> simp [h]

theorem flatten_position_registers (env : Env) (s : TradeStrategy)
    (pid : PositionId) :
    (flatten_position env s pid).1._entry_orders = s._entry_orders
    ∧ (flatten_position env s pid).1._stop_loss_orders = s._stop_loss_orders
    ∧ (flatten_position env s pid).1._take_profit_orders =
        s._take_profit_orders
    ∧ (flatten_position env s pid).1._atomic_order_ids =
        s._atomic_order_ids := by
  unfold flatten_position
  by_cases h : s.is_exec_client_registered
  · by_cases hf : (env.get_position pid).is_flat
    · simp [h, hf]
    · cases hs : get_flatten_side (env.get_position pid).market_position with
      | none => simp [h, hf, hs]
      | some side =>
        simp [h, hf, hs, submit_order_state]
  · simp [h]

theorem regCount_flatten_eq (env : Env) (s : TradeStrategy)
    (pid : PositionId) (oid : OrderId) :
    regCount (flatten_position env s pid).1 oid = regCount s oid := by
  obtain ⟨h1, h2, h3, _⟩ := flatten_position_registers env s pid
  unfold regCount
  rw [h1, h2, h3]

theorem handle_event_terminal_exists (env : Env) (s : TradeStrategy)
    (oid : OrderId) (event : Event)
    (hterm : event = Event.orderFilled oid ∨ event = Event.orderCancelled oid
      ∨ event = Event.orderRejected oid ∨ event = Event.orderExpired oid) :
    ∃ sa : TradeStrategy,
      (handle_event env s event).1 = _remove_from_registered_orders sa oid
        ∧ regCount sa oid ≤ regCount s oid := by
  rcases hterm with h | h | h | h <;> subst h
  · refine ⟨if Dict.contains s._atomic_order_ids oid = true then
        { s with _atomic_order_ids := Dict.erase s._atomic_order_ids oid }
      else s, ?_, ?_⟩
    · by_cases h : Dict.contains s._atomic_order_ids oid = true <;>
        simp [handle_event, h]
    · by_cases h : Dict.contains s._atomic_order_ids oid = true <;>
        simp only [h, if_true, if_false] <;> exact Nat.le_refl _
  · exact ⟨_remove_atomic_child_orders s oid, by simp [handle_event],
      regCount_remove_atomic_le s oid oid⟩
  · by_cases hc : (Dict.contains s._stop_loss_orders oid
        && s.flatten_on_sl_reject) = true
    · cases hp : env.position_for_order oid with
      | none =>
        refine ⟨_remove_atomic_child_orders s oid, ?_,
          regCount_remove_atomic_le s oid oid⟩
        simp [handle_event, hc, hp]
      | some position =>
        by_cases he : position.is_entered = true
        · refine ⟨_remove_atomic_child_orders
            (flatten_position env s position.id).1 oid, ?_, ?_⟩
          · simp [handle_event, hc, hp, he]
          · calc regCount (_remove_atomic_child_orders
                  (flatten_position env s position.id).1 oid) oid
                ≤ regCount (flatten_position env s position.id).1 oid :=
                  regCount_remove_atomic_le _ oid oid
              _ = regCount s oid := regCount_flatten_eq env s position.id oid
        · refine ⟨_remove_atomic_child_orders s oid, ?_,
            regCount_remove_atomic_le s oid oid⟩
          simp [handle_event, hc, hp, he]
    · refine ⟨_remove_atomic_child_orders s oid, ?_,
        regCount_remove_atomic_le s oid oid⟩
      simp [handle_event, hc]
  · exact ⟨_remove_atomic_child_orders s oid, by simp [handle_event],
      regCount_remove_atomic_le s oid oid⟩

end TradeStrategy

/-- C4 counterexample state: the same order (id 5) registered both as an
entry and as a stop-loss through the public registration API. -/
def sDoubleC4 : TradeStrategy :=
  ((mkStrategy true true true 1000).register_entry_order order5 7
    ).register_stop_loss_order order5 7

/-- C4 as stated is false: registration calls can place one OrderId in two
registers, and `_remove_from_registered_orders` (an `if/elif/elif` chain)
then removes it only from the first one — after OrderCancelled for id 5 the
id is still present in the stop-loss register. -/
theorem C4_counterexample :
    Dict.contains sDoubleC4._entry_orders 5 = true
    ∧ Dict.contains sDoubleC4._stop_loss_orders 5 = true
    ∧ Dict.contains (TradeStrategy.handle_event env0 sDoubleC4
        (Event.orderCancelled 5)).1._stop_loss_orders 5 = true := by
  refine ⟨by decide, by decide, by decide⟩

/-- C4 (amended): after `handle_event` processes a terminal event
(OrderFilled, OrderCancelled, OrderRejected or OrderExpired) carrying
OrderId X, X is absent from all three registers — provided X was registered
in at most one of the three registers beforehand (the invariant normal
operation maintains; with double registration only the first register in the
entry, stop-loss, take-profit order is cleared). -/
theorem C4_terminal_removal (env : Env) (s : TradeStrategy) (oid : OrderId)
    (event : Event)
    (hterm : event = Event.orderFilled oid ∨ event = Event.orderCancelled oid
      ∨ event = Event.orderRejected oid ∨ event = Event.orderExpired oid)
    (honce : TradeStrategy.regCount s oid ≤ 1) :
    Dict.contains (TradeStrategy.handle_event env s event).1._entry_orders
        oid = false
    ∧ Dict.contains (TradeStrategy.handle_event env s event).1._stop_loss_orders
        oid = false
    ∧ Dict.contains (TradeStrategy.handle_event env s
        event).1._take_profit_orders oid = false := by
  obtain ⟨sa, heq, hle⟩ :=
    TradeStrategy.handle_event_terminal_exists env s oid event hterm
  rw [heq]
  exact TradeStrategy.remove_registered_clears sa oid (le_trans hle honce)

/-- Witness for C4 (amended): order id 5 registered once (as an entry);
after OrderCancelled it is gone from all three registers. -/
theorem C4_terminal_removal_witness :
    Dict.contains (TradeStrategy.handle_event env0
        ((mkStrategy true true true 1000).register_entry_order order5 7)
        (Event.orderCancelled 5)).1._entry_orders 5 = false
    ∧ Dict.contains (TradeStrategy.handle_event env0
        ((mkStrategy true true true 1000).register_entry_order order5 7)
        (Event.orderCancelled 5)).1._stop_loss_orders 5 = false
    ∧ Dict.contains (TradeStrategy.handle_event env0
        ((mkStrategy true true true 1000).register_entry_order order5 7)
        (Event.orderCancelled 5)).1._take_profit_orders 5 = false :=
  C4_terminal_removal env0
    ((mkStrategy true true true 1000).register_entry_order order5 7) 5
    (Event.orderCancelled 5) (Or.inr (Or.inl rfl)) (by decide)

/-! ### Atomic-order rejection cascade -/

/-- The position the C1 oracle reports: entered LONG position 100. -/
def posC1 : Position :=
  { id := 100, symbol := 1, market_position := MarketPosition.LONG,
    quantity := 100, is_entered := true }

/-- An oracle that associates every order with entered position 100. -/
def envC1 : Env where
  position_for_order := fun _ => some posC1
  get_position := fun _ => posC1
  positions_active := [(100, posC1)]
  is_strategy_flat := false
  order_price := fun _ => 0
  orders := []

/-- The C1 atomic order: entry id 1, stop-loss id 2, take-profit id 3. -/
def atomicC1 : AtomicOrder where
  entry := { id := 1, symbol := 1, side := OrderSide.BUY, quantity := 100,
             price := some 105, label := "E" }
  stop_loss := { id := 2, symbol := 1, side := OrderSide.SELL, quantity := 100,
                 price := some 95, label := "SL" }
  take_profit := some { id := 3, symbol := 1, side := OrderSide.SELL,
                        quantity := 100, price := some 115, label := "TP" }

/-- The registered atomic order of C1 against PositionId 100, on a strategy
with `flatten_on_sl_reject = true` and an execution client. -/
def sAtomicC1 : TradeStrategy :=
  ((mkStrategy true true true 1000).register_execution_client.submit_atomic_order
    atomicC1 100).1

/-- C1 as stated is false in its flatten conjunct: with
`flatten_on_sl_reject = true` and an entered position existing for entry O1,
delivering OrderRejected{O1} forwards no command at all — in particular no
flatten market order for P1 — because the flatten branch fires only when
the rejected id is in the stop-loss register, and O1 is registered as an
entry. -/
theorem C1_counterexample :
    sAtomicC1.flatten_on_sl_reject = true
    ∧ envC1.position_for_order 1 = some posC1
    ∧ posC1.is_entered = true
    ∧ execCommands (TradeStrategy.handle_event envC1 sAtomicC1
        (Event.orderRejected 1)).2 = [] := by
  refine ⟨rfl, rfl, rfl, by decide⟩

/-- C1 (amended): registering an atomic order (entry O1, stop-loss O2,
take-profit O3, pairwise-distinct ids, against position P1) via
`submit_atomic_order` and then delivering OrderRejected{O1} removes O1, O2
and O3 from all three registers and leaves `atomic_order_ids` empty — but no
flatten market order is submitted for P1, whatever `flatten_on_sl_reject`
and the portfolio's position say, because the flatten-on-reject branch
applies only to an order registered as a STOP_LOSS, and O1 is registered as
an entry. -/
theorem C1_atomic_rejection_cascade (env : Env) (b1 b2 b3 : Bool) (cap : Nat)
    (entry sl tp : Order) (pid : PositionId)
    (hes : ¬ entry.id = sl.id) (het : ¬ entry.id = tp.id)
    (hst : ¬ sl.id = tp.id) :
    (TradeStrategy.handle_event env
        (((mkStrategy b1 b2 b3 cap).register_execution_client).submit_atomic_order
          ⟨entry, sl, some tp⟩ pid).1
        (Event.orderRejected entry.id)).1._entry_orders = []
    ∧ (TradeStrategy.handle_event env
        (((mkStrategy b1 b2 b3 cap).register_execution_client).submit_atomic_order
          ⟨entry, sl, some tp⟩ pid).1
        (Event.orderRejected entry.id)).1._stop_loss_orders = []
    ∧ (TradeStrategy.handle_event env
        (((mkStrategy b1 b2 b3 cap).register_execution_client).submit_atomic_order
          ⟨entry, sl, some tp⟩ pid).1
        (Event.orderRejected entry.id)).1._take_profit_orders = []
    ∧ (TradeStrategy.handle_event env
        (((mkStrategy b1 b2 b3 cap).register_execution_client).submit_atomic_order
          ⟨entry, sl, some tp⟩ pid).1
        (Event.orderRejected entry.id)).1._atomic_order_ids = []
    ∧ execCommands (TradeStrategy.handle_event env
        (((mkStrategy b1 b2 b3 cap).register_execution_client).submit_atomic_order
          ⟨entry, sl, some tp⟩ pid).1
        (Event.orderRejected entry.id)).2 = [] := by
  simp [mkStrategy, TradeStrategy.register_execution_client,
    TradeStrategy.submit_atomic_order, TradeStrategy.register_entry_order,
    TradeStrategy.register_stop_loss_order,
    TradeStrategy.register_take_profit_order, AtomicOrder.has_take_profit,
    TradeStrategy.handle_event, TradeStrategy._remove_atomic_child_orders,
    TradeStrategy._remove_from_registered_orders,
    Dict.insert, Dict.contains, Dict.lookup, Dict.erase, execCommands,
    hes, het, hst, Ne.symm hes, Ne.symm het, Ne.symm hst]

/-- The three legs of the C1 atomic order as standalone orders. -/
def entryC1 : Order :=
  { id := 1, symbol := 1, side := OrderSide.BUY, quantity := 100,
    price := some 105, label := "E" }

def slC1 : Order :=
  { id := 2, symbol := 1, side := OrderSide.SELL, quantity := 100,
    price := some 95, label := "SL" }

def tpC1 : Order :=
  { id := 3, symbol := 1, side := OrderSide.SELL, quantity := 100,
    price := some 115, label := "TP" }

/-- Witness for C1 (amended), at ids 1, 2, 3 against position 100 under the
entered-position oracle. -/
theorem C1_atomic_rejection_cascade_witness :
    (TradeStrategy.handle_event envC1
        (((mkStrategy true true true 1000).register_execution_client).submit_atomic_order
          ⟨entryC1, slC1, some tpC1⟩ 100).1
        (Event.orderRejected entryC1.id)).1._atomic_order_ids = []
    ∧ execCommands (TradeStrategy.handle_event envC1
        (((mkStrategy true true true 1000).register_execution_client).submit_atomic_order
          ⟨entryC1, slC1, some tpC1⟩ 100).1
        (Event.orderRejected entryC1.id)).2 = [] :=
  ⟨(C1_atomic_rejection_cascade envC1 true true true 1000 entryC1 slC1 tpC1
      100 (by decide) (by decide) (by decide)).2.2.2.1,
   (C1_atomic_rejection_cascade envC1 true true true 1000 entryC1 slC1 tpC1
      100 (by decide) (by decide) (by decide)).2.2.2.2⟩

/-! ### The stop() sequence -/

namespace TradeStrategy

theorem flatten_step_state (acc : TradeStrategy × List Effect)
    (pp : PositionId × Position) :
    ∃ f : OrderFactory, (flatten_step acc pp).1 =
      { acc.1 with order_factory := f } := by
  obtain ⟨sAcc, fxAcc⟩ := acc
  unfold flatten_step
  by_cases hflat : pp.2.is_flat = true
  · exact ⟨sAcc.order_factory, by simp [hflat]⟩
  · cases hs : get_flatten_side pp.2.market_position with
    | none => exact ⟨sAcc.order_factory, by simp [hflat, hs]⟩
    | some side =>
      refine ⟨(sAcc.order_factory.market pp.2.symbol side pp.2.quantity
        "EXIT").1, ?_⟩
      simp [hflat, hs, submit_order_state]

theorem flatten_fold_state :
    ∀ (l : List (PositionId × Position)) (acc : TradeStrategy × List Effect),
      ∃ f : OrderFactory, (l.foldl flatten_step acc).1 =
        { acc.1 with order_factory := f } := by
  intro l
  induction l with
  | nil =>
    intro acc
    exact ⟨acc.1.order_factory, rfl⟩
  | cons pp rest ih =>
    intro acc
    obtain ⟨f0, h0⟩ := flatten_step_state acc pp
    obtain ⟨f, hf⟩ := ih (flatten_step acc pp)
    exact ⟨f, by rw [List.foldl_cons, hf, h0]⟩

theorem flatten_all_positions_state (env : Env) (s : TradeStrategy) :
    ∃ f : OrderFactory, (flatten_all_positions env s).1 =
      { s with order_factory := f } := by
  have heta : ({ s with order_factory := s.order_factory } : TradeStrategy)
      = s := rfl
  unfold flatten_all_positions
  by_cases hreg : s.is_exec_client_registered
  · by_cases hlen : env.positions_active.length = 0
    · refine ⟨s.order_factory, ?_⟩
      rw [heta]
      simp [hreg, hlen]
    · obtain ⟨f, hf⟩ := flatten_fold_state env.positions_active (s, [])
      exact ⟨f, by simp [hreg, hlen, hf]⟩
  · refine ⟨s.order_factory, ?_⟩
    rw [heta]
    simp [hreg]

theorem cancel_all_orders_state (env : Env) (s : TradeStrategy)
    (r : Option String) : (cancel_all_orders env s r).1 = s := by
  unfold cancel_all_orders
  by_cases hreg : s.is_exec_client_registered <;> simp [hreg]

theorem cancel_all_orders_trace (env : Env) (s : TradeStrategy)
    (r : Option String) (hreg : s.is_exec_client_registered = true) :
    (cancel_all_orders env s r).2 =
      env.orders.filterMap fun p =>
        if p.2.2 then some (Effect.execCommand (Command.cancelOrder p.1 r))
        else none := by
  simp [cancel_all_orders, hreg]

theorem residual_warnings_congr {s' s : TradeStrategy}
    (h1 : s'._entry_orders = s._entry_orders)
    (h2 : s'._stop_loss_orders = s._stop_loss_orders)
    (h3 : s'._take_profit_orders = s._take_profit_orders)
    (h4 : s'._atomic_order_ids = s._atomic_order_ids)
    (h5 : s'._modify_order_buffer = s._modify_order_buffer) :
    residual_warnings s' = residual_warnings s := by
  unfold residual_warnings
  rw [h1, h2, h3, h4, h5]

theorem flatten_step_trace_mem (acc : TradeStrategy × List Effect)
    (pp : PositionId × Position) (e : Effect) (he : e ∈ acc.2) :
    e ∈ (flatten_step acc pp).2 := by
  obtain ⟨sAcc, fxAcc⟩ := acc
  unfold flatten_step
  by_cases hflat : pp.2.is_flat = true
  · simp only [hflat, if_true]
    exact List.mem_append_left _ he
  · cases hs : get_flatten_side pp.2.market_position with
    | none =>
      simp only [hflat, if_false, Bool.false_eq_true, hs]
      exact he
    | some side =>
      unfold submit_order
      by_cases hreg : sAcc.is_exec_client_registered = true <;>
        simp [hflat, hs, hreg, he]

theorem flatten_fold_trace_grows :
    ∀ (l : List (PositionId × Position)) (acc : TradeStrategy × List Effect)
      (e : Effect), e ∈ acc.2 → e ∈ (l.foldl flatten_step acc).2 := by
  intro l
  induction l with
  | nil => intro acc e he; exact he
  | cons pp rest ih =>
    intro acc e he
    exact ih (flatten_step acc pp) e (flatten_step_trace_mem acc pp e he)

theorem flatten_step_submits (acc : TradeStrategy × List Effect)
    (pp : PositionId × Position)
    (hreg : acc.1.is_exec_client_registered = true)
    (hflat : pp.2.is_flat = false) :
    ∃ o : Order, o.quantity = pp.2.quantity ∧ o.label = "EXIT"
      ∧ some o.side = get_flatten_side pp.2.market_position
      ∧ Effect.execCommand (Command.submitOrder pp.1 o) ∈
          (flatten_step acc pp).2 := by
  obtain ⟨sAcc, fxAcc⟩ := acc
  have hmp : pp.2.market_position ≠ MarketPosition.FLAT := by
    intro hc
    simp [Position.is_flat, hc] at hflat
  obtain ⟨side, hs⟩ : ∃ side, get_flatten_side pp.2.market_position =
      some side := by
    cases hm : pp.2.market_position with
    | FLAT => exact absurd hm hmp
    | LONG => exact ⟨OrderSide.SELL, rfl⟩
    | SHORT => exact ⟨OrderSide.BUY, rfl⟩
  refine ⟨(sAcc.order_factory.market pp.2.symbol side pp.2.quantity
      "EXIT").2, rfl, rfl, ?_, ?_⟩
  · rw [hs]
    rfl
  · unfold flatten_step
    have hflat' : ¬ pp.2.is_flat = true := by simp [hflat]
    simp only [hflat', if_false, Bool.false_eq_true, hs]
    unfold submit_order
    have hreg1 : sAcc.is_exec_client_registered = true := hreg
    simp [hreg1, OrderFactory.market]

theorem flatten_fold_submits :
    ∀ (l : List (PositionId × Position)) (acc : TradeStrategy × List Effect),
      acc.1.is_exec_client_registered = true →
      ∀ pp ∈ l, pp.2.is_flat = false →
        ∃ o : Order, o.quantity = pp.2.quantity ∧ o.label = "EXIT"
          ∧ some o.side = get_flatten_side pp.2.market_position
          ∧ Effect.execCommand (Command.submitOrder pp.1 o) ∈
              (l.foldl flatten_step acc).2 := by
  intro l
  induction l with
  | nil => intro acc _ pp hpp; cases hpp
  | cons hd rest ih =>
    intro acc hreg pp hpp hflat
    have hreg' : (flatten_step acc hd).1.is_exec_client_registered = true := by
      obtain ⟨f, hf⟩ := flatten_step_state acc hd
      rw [hf]
      exact hreg
    rcases List.mem_cons.mp hpp with hpp' | hpp'
    · subst hpp'
      obtain ⟨o, ho1, ho2, ho3, ho4⟩ := flatten_step_submits acc pp hreg hflat
      exact ⟨o, ho1, ho2, ho3,
        flatten_fold_trace_grows rest (flatten_step acc pp) _ ho4⟩
    · exact ih (flatten_step acc hd) hreg' pp hpp' hflat

theorem flatten_all_positions_submits (env : Env) (s : TradeStrategy)
    (hreg : s.is_exec_client_registered = true) :
    ∀ pp ∈ env.positions_active, pp.2.is_flat = false →
      ∃ o : Order, o.quantity = pp.2.quantity ∧ o.label = "EXIT"
        ∧ some o.side = get_flatten_side pp.2.market_position
        ∧ Effect.execCommand (Command.submitOrder pp.1 o) ∈
            (flatten_all_positions env s).2 := by
  intro pp hpp hflat
  unfold flatten_all_positions
  have hlen : ¬ env.positions_active.length = 0 := by
    intro hc
    rw [List.length_eq_zero] at hc
    rw [hc] at hpp
    cases hpp
  obtain ⟨o, ho1, ho2, ho3, ho4⟩ :=
    flatten_fold_submits env.positions_active (s, []) hreg pp hpp hflat
  exact ⟨o, ho1, ho2, ho3, by simp [hreg, hlen, ho4]⟩

end TradeStrategy

/-- C3: with an execution client registered, `stop()` performs in order:
cancel all time alerts and timers on the clock; if `flatten_on_stop` and the
strategy is not flat, run the flatten of all active positions (which submits
a market EXIT order, of the flatten side and the position's quantity, for
every active non-flat position); if `cancel_all_orders_on_stop`, issue a
CancelOrder for every active order of the strategy; set `is_running` to
false; emit a warning for every residual entry, stop-loss, take-profit,
atomic-child and buffered-modify ledger entry; then call `on_stop`. -/
theorem C3_stop_sequence (env : Env) (s : TradeStrategy)
    (hreg : s.is_exec_client_registered = true) :
    (TradeStrategy.stop env s).1.is_running = false
    ∧ (TradeStrategy.stop env s).2 =
        [Effect.log LogMsg.infoStopping, Effect.cancelAllTimeAlerts,
          Effect.cancelAllTimers]
        ++ (if s.flatten_on_stop then
              (if !env.is_strategy_flat then
                (TradeStrategy.flatten_all_positions env s).2 else [])
            else [])
        ++ (if s.cancel_all_orders_on_stop then
              env.orders.filterMap (fun p =>
                if p.2.2 then some (Effect.execCommand
                  (Command.cancelOrder p.1 (some "STOPPING STRATEGY")))
                else none)
            else [])
        ++ [Effect.setRunning false]
        ++ TradeStrategy.residual_warnings s
        ++ [Effect.hook Hook.onStop, Effect.log LogMsg.infoStopped]
    ∧ (s.flatten_on_stop = true → env.is_strategy_flat = false →
        ∀ pp ∈ env.positions_active, pp.2.is_flat = false →
          ∃ o : Order, o.quantity = pp.2.quantity ∧ o.label = "EXIT"
            ∧ some o.side = TradeStrategy.get_flatten_side pp.2.market_position
            ∧ Effect.execCommand (Command.submitOrder pp.1 o)
                ∈ (TradeStrategy.stop env s).2) := by
  obtain ⟨f1, hf1⟩ := TradeStrategy.flatten_all_positions_state env s
  have hwarn : ∀ f : OrderFactory,
      TradeStrategy.residual_warnings
        { s with order_factory := f, is_running := false } =
        TradeStrategy.residual_warnings s :=
    fun f => TradeStrategy.residual_warnings_congr rfl rfl rfl rfl rfl
  have hwarn0 : TradeStrategy.residual_warnings { s with is_running := false } =
      TradeStrategy.residual_warnings s :=
    TradeStrategy.residual_warnings_congr rfl rfl rfl rfl rfl
  have hmain : (TradeStrategy.stop env s).1.is_running = false
      ∧ (TradeStrategy.stop env s).2 =
        [Effect.log LogMsg.infoStopping, Effect.cancelAllTimeAlerts,
          Effect.cancelAllTimers]
        ++ (if s.flatten_on_stop then
              (if !env.is_strategy_flat then
                (TradeStrategy.flatten_all_positions env s).2 else [])
            else [])
        ++ (if s.cancel_all_orders_on_stop then
              env.orders.filterMap (fun p =>
                if p.2.2 then some (Effect.execCommand
                  (Command.cancelOrder p.1 (some "STOPPING STRATEGY")))
                else none)
            else [])
        ++ [Effect.setRunning false]
        ++ TradeStrategy.residual_warnings s
        ++ [Effect.hook Hook.onStop, Effect.log LogMsg.infoStopped] := by
    by_cases hfs : s.flatten_on_stop = true
    · by_cases hisf : env.is_strategy_flat = false
      · have hisf2 : (!env.is_strategy_flat) = true := by
          rw [hisf]
          rfl
        have hreg1 : ({ s with order_factory := f1 }
            : TradeStrategy).is_exec_client_registered = true := hreg
        have hcs := TradeStrategy.cancel_all_orders_state env
          { s with order_factory := f1 } (some "STOPPING STRATEGY")
        have hct := TradeStrategy.cancel_all_orders_trace env
          { s with order_factory := f1 } (some "STOPPING STRATEGY") hreg1
        by_cases hcan : s.cancel_all_orders_on_stop = true
        · refine ⟨?_, ?_⟩
          · simp only [TradeStrategy.stop, if_pos hfs, if_pos hisf2, hf1,
              if_pos hcan, hcs]
          · simp only [TradeStrategy.stop, if_pos hfs, if_pos hisf2, hf1,
              if_pos hcan, hcs, hct, hwarn]
        · refine ⟨?_, ?_⟩
          · simp only [TradeStrategy.stop, if_pos hfs, if_pos hisf2, hf1,
              if_neg hcan]
          · simp only [TradeStrategy.stop, if_pos hfs, if_pos hisf2, hf1,
              if_neg hcan, hwarn, List.append_nil]
      · have hflt : env.is_strategy_flat = true := by
          rcases Bool.eq_false_or_eq_true env.is_strategy_flat with h | h
          · exact h
          · exact absurd h hisf
        have hisf2 : ¬ ((!env.is_strategy_flat) = true) := by
          rw [hflt]
          simp
        have hcs := TradeStrategy.cancel_all_orders_state env s
          (some "STOPPING STRATEGY")
        have hct := TradeStrategy.cancel_all_orders_trace env s
          (some "STOPPING STRATEGY") hreg
        by_cases hcan : s.cancel_all_orders_on_stop = true
        · refine ⟨?_, ?_⟩
          · simp only [TradeStrategy.stop, if_pos hfs, if_neg hisf2,
              if_pos hcan, hcs]
          · simp only [TradeStrategy.stop, if_pos hfs, if_neg hisf2,
              if_pos hcan, hcs, hct, hwarn0, List.nil_append, List.append_nil]
        · refine ⟨?_, ?_⟩
          · simp only [TradeStrategy.stop, if_pos hfs, if_neg hisf2,
              if_neg hcan]
          · simp only [TradeStrategy.stop, if_pos hfs, if_neg hisf2,
              if_neg hcan, hwarn0, List.nil_append, List.append_nil]
    · have hcs := TradeStrategy.cancel_all_orders_state env s
        (some "STOPPING STRATEGY")
      have hct := TradeStrategy.cancel_all_orders_trace env s
        (some "STOPPING STRATEGY") hreg
      by_cases hcan : s.cancel_all_orders_on_stop = true
      · refine ⟨?_, ?_⟩
        · simp only [TradeStrategy.stop, if_neg hfs, if_pos hcan, hcs]
        · simp only [TradeStrategy.stop, if_neg hfs, if_pos hcan, hcs, hct,
            hwarn0, List.nil_append, List.append_nil]
      · refine ⟨?_, ?_⟩
        · simp only [TradeStrategy.stop, if_neg hfs, if_neg hcan]
        · simp only [TradeStrategy.stop, if_neg hfs, if_neg hcan, hwarn0,
            List.nil_append, List.append_nil]
  refine ⟨hmain.1, hmain.2, ?_⟩
  intro hfs hisf pp hpp hflat
  obtain ⟨o, ho1, ho2, ho3, ho4⟩ :=
    TradeStrategy.flatten_all_positions_submits env s hreg pp hpp hflat
  refine ⟨o, ho1, ho2, ho3, ?_⟩
  rw [hmain.2]
  refine List.mem_append.mpr (Or.inl ?_)
  refine List.mem_append.mpr (Or.inl ?_)
  refine List.mem_append.mpr (Or.inl ?_)
  refine List.mem_append.mpr (Or.inl ?_)
  refine List.mem_append.mpr (Or.inr ?_)
  simp only [hfs, hisf, Bool.not_false, if_true]
  exact ho4

/-- The C3 oracle: one active entered LONG position (id 100) and one active
order (id 5), strategy not flat. -/
def envC3 : Env where
  position_for_order := fun _ => none
  get_position := fun _ => posC1
  positions_active := [(100, posC1)]
  is_strategy_flat := false
  order_price := fun _ => 0
  orders := [(5, (order5, true))]

/-- Witness for C3: stopping a fresh strategy (flatten and cancel flags on,
execution client registered) under the C3 oracle ends not running and has
submitted a market EXIT order of the position's quantity for position 100. -/
theorem C3_stop_sequence_witness :
    (TradeStrategy.stop envC3
        (mkStrategy true true true 1000).register_execution_client).1.is_running
      = false
    ∧ (∃ o : Order, o.quantity = posC1.quantity ∧ o.label = "EXIT"
        ∧ some o.side = TradeStrategy.get_flatten_side posC1.market_position
        ∧ Effect.execCommand (Command.submitOrder 100 o) ∈
            (TradeStrategy.stop envC3
              (mkStrategy true true true 1000).register_execution_client).2) :=
  have h := C3_stop_sequence envC3
    (mkStrategy true true true 1000).register_execution_client rfl
  ⟨h.1, h.2.2 rfl rfl (100, posC1) (by decide) (by decide)⟩

end Nautilus
